import Mathlib

/-!
# Verification of the spreadsheet storage layer

A shallow embedding of `spreadsheet_manager.py` (class `SpreadsheetManager`)
and of the data-driven plot-type heuristic of `tools.py` (`plot_data_tool`),
together with proofs and refutations of the specification's claims.

Conventions of the embedding:

* Python strings are Lean `String`s; character-level operations (`str.lower`,
  `str.strip`, regular-expression substitution) are modelled on `String.data`
  at ASCII precision, which is exact on every input used by a witness or
  counterexample.
* A Python function that can raise an uncaught exception is embedded in
  `Except String`: `Except.error msg` models the exception escaping, and
  `Except.ok` carries the returned dictionary together with the manager state
  after the call.  The structured `{"success": ..., ...}` dictionaries are
  modelled by `Outcome`.
* SQLite semantics made explicit in the embedding: `AUTOINCREMENT` rowid
  selection and the `sqlite_sequence` counter, failure of `CREATE TABLE` on an
  empty or duplicate column list, rejection of bound parameters in DDL
  statements (`ALTER TABLE ... DEFAULT ?`), and `SELECT ... ORDER BY id`.
* The CSV writer/reader (`csv.DictWriter` / `csv.reader`, default dialect) is
  modelled at character level: minimal quoting with `"` doubling, CRLF record
  terminator, `None` written as the empty field, blank line read as the empty
  record.
-/

namespace Spreadsheet

/-! ## Identifier sanitizer (`SpreadsheetManager._sanitize_name`) -/

/-- ASCII whitespace stripped by Python's `str.strip()`. -/
def pySpace (c : Char) : Bool :=
  c = ' ' || c = '\t' || c = '\n' || c = '\r' || c = '\x0b' || c = '\x0c'

/-- `str.strip()` on a character list: drop whitespace from both ends. -/
def stripChars (l : List Char) : List Char :=
  ((l.dropWhile pySpace).reverse.dropWhile pySpace).reverse

/-- The character class `[a-zA-Z0-9_]` kept by the substitution
`re.sub(r'[^a-zA-Z0-9_]', '_', ...)`. -/
def keepChar (c : Char) : Bool :=
  ('a' ≤ c && c ≤ 'z') || ('A' ≤ c && c ≤ 'Z') || ('0' ≤ c && c ≤ '9') || c = '_'

/-- One character of the substitution: keep `[a-zA-Z0-9_]`, else `_`. -/
def subChar (c : Char) : Char :=
  if keepChar c then c else '_'

/-- `re.sub(r'[^a-zA-Z0-9_]', '_', name.lower().strip())`. -/
def sanitizeCore (l : List Char) : List Char :=
  (stripChars (l.map Char.toLower)).map subChar

/-- `_sanitize_name` on a character list.  `none` models the `IndexError`
raised by `sanitized[0]` when the stripped input is empty. -/
def sanitizeChars (l : List Char) : Option (List Char) :=
  match sanitizeCore l with
  | [] => none
  | c :: cs => some (if c.isDigit then '_' :: c :: cs else c :: cs)

/-- `SpreadsheetManager._sanitize_name`.  Returns `none` when the call raises
`IndexError` (empty or whitespace-only input). -/
def sanitize_name (s : String) : Option String :=
  (sanitizeChars s.data).map String.mk

/-- Modelled from the spec: the sanitizer recipe exactly as the claim words it
("lowercasing, replacing every character outside `[a-z0-9_]` with `_`, and
prefixing `_` when the result starts with a digit") — with no stripping step
and no failure case. -/
def sanitizeClaimRecipe (s : String) : String :=
  match (s.data.map Char.toLower).map subChar with
  | [] => ""
  | c :: cs => if c.isDigit then String.mk ('_' :: c :: cs) else String.mk (c :: cs)

/-- The output character class `[a-z0-9_]` named by the claim. -/
def outChar (c : Char) : Bool :=
  ('a' ≤ c && c ≤ 'z') || ('0' ≤ c && c ≤ '9') || c = '_'

theorem subChar_outChar (c : Char) (h : ¬('A' ≤ c ∧ c ≤ 'Z')) : outChar (subChar c) = true := by
  unfold subChar keepChar outChar
  split
  · rename_i hk
    simp only [Bool.or_eq_true, decide_eq_true_eq] at hk ⊢
    rcases hk with ((h1 | h2) | h3) | h4
    · exact Or.inl (Or.inl h1)
    · exact absurd (by simpa using h2) h
    · exact Or.inl (Or.inr h3)
    · exact Or.inr h4
  · decide

theorem toNat_ofNat_valid (n : Nat) (h : n < 55296) : (Char.ofNat n).toNat = n := by
  unfold Char.ofNat
  rw [dif_pos (Or.inl h)]
  rfl

theorem toLower_not_upper (c : Char) : ¬('A' ≤ c.toLower ∧ c.toLower ≤ 'Z') := by
  rintro ⟨h1, h2⟩
  have h1' : 65 ≤ c.toLower.toNat := h1
  have h2' : c.toLower.toNat ≤ 90 := h2
  by_cases hc : c.toNat ≥ 65 ∧ c.toNat ≤ 90
  · have hdef : c.toLower = Char.ofNat (c.toNat + 32) := by
      unfold Char.toLower
      simp [hc]
    have hval : (Char.ofNat (c.toNat + 32)).toNat = c.toNat + 32 :=
      toNat_ofNat_valid _ (by omega)
    rw [hdef, hval] at h1' h2'
    omega
  · have hdef : c.toLower = c := by
      unfold Char.toLower
      simp [hc]
    rw [hdef] at h1' h2'
    exact hc ⟨h1', h2'⟩

theorem sanitizeCore_outChar (l : List Char) : ∀ c ∈ sanitizeCore l, outChar c = true := by
  intro c hc
  unfold sanitizeCore at hc
  rcases List.mem_map.mp hc with ⟨c', hc', rfl⟩
  have hmem : c' ∈ l.map Char.toLower := by
    unfold stripChars at hc'
    have h1 := List.mem_reverse.mp hc'
    have h2 := List.dropWhile_sublist (l := (l.map Char.toLower |>.dropWhile pySpace).reverse)
      (p := pySpace) |>.mem h1
    have h3 := List.mem_reverse.mp h2
    exact (List.dropWhile_sublist (l := l.map Char.toLower) (p := pySpace)).mem h3
  rcases List.mem_map.mp hmem with ⟨c0, _, rfl⟩
  exact subChar_outChar _ (toLower_not_upper c0)

theorem charLe_toNat {a b : Char} (h : a ≤ b) : a.toNat ≤ b.toNat := h

theorem outChar_cases (c : Char) (h : outChar c = true) :
    (97 ≤ c.toNat ∧ c.toNat ≤ 122) ∨ (48 ≤ c.toNat ∧ c.toNat ≤ 57) ∨ c.toNat = 95 := by
  unfold outChar at h
  simp only [Bool.or_eq_true, Bool.and_eq_true, decide_eq_true_eq] at h
  rcases h with (⟨h1, h2⟩ | ⟨h1, h2⟩) | h3
  · exact Or.inl ⟨charLe_toNat h1, charLe_toNat h2⟩
  · exact Or.inr (Or.inl ⟨charLe_toNat h1, charLe_toNat h2⟩)
  · subst h3
    exact Or.inr (Or.inr rfl)

theorem toLower_fix_of_outChar (c : Char) (h : outChar c = true) : c.toLower = c := by
  have hc := outChar_cases c h
  have hn : ¬(c.toNat ≥ 65 ∧ c.toNat ≤ 90) := by omega
  unfold Char.toLower
  simp [hn]

theorem pySpace_false_of_outChar (c : Char) (h : outChar c = true) : pySpace c = false := by
  have hc := outChar_cases c h
  unfold pySpace
  simp only [Bool.or_eq_false_iff, decide_eq_false_iff_not]
  refine ⟨⟨⟨⟨⟨?_, ?_⟩, ?_⟩, ?_⟩, ?_⟩, ?_⟩ <;>
    (rintro rfl; revert hc; decide)

theorem keepChar_of_outChar (c : Char) (h : outChar c = true) : keepChar c = true := by
  unfold outChar at h
  unfold keepChar
  simp only [Bool.or_eq_true, Bool.and_eq_true, decide_eq_true_eq] at h ⊢
  rcases h with (h' | h') | h'
  · exact Or.inl (Or.inl (Or.inl h'))
  · exact Or.inl (Or.inr h')
  · exact Or.inr h'

theorem subChar_fix_of_outChar (c : Char) (h : outChar c = true) : subChar c = c := by
  unfold subChar
  rw [if_pos (keepChar_of_outChar c h)]

theorem dropWhile_eq_self_of {p : Char → Bool} {l : List Char}
    (h : ∀ c ∈ l, p c = false) : List.dropWhile p l = l := by
  cases l with
  | nil => rfl
  | cons c cs =>
    rw [List.dropWhile_cons, if_neg]
    simp [h c (List.mem_cons_self c cs)]

theorem stripChars_eq_self_of {l : List Char} (h : ∀ c ∈ l, pySpace c = false) :
    stripChars l = l := by
  unfold stripChars
  rw [dropWhile_eq_self_of h, dropWhile_eq_self_of, List.reverse_reverse]
  intro c hc
  exact h c (List.mem_reverse.mp hc)

theorem map_eq_self_of {f : Char → Char} {l : List Char} (h : ∀ c ∈ l, f c = c) :
    l.map f = l := by
  induction l with
  | nil => rfl
  | cons c cs ih =>
    rw [List.map_cons, h c (List.mem_cons_self c cs), ih]
    intro d hd
    exact h d (List.mem_cons_of_mem c hd)

theorem sanitizeCore_fix {l : List Char} (h : ∀ c ∈ l, outChar c = true) :
    sanitizeCore l = l := by
  unfold sanitizeCore
  rw [map_eq_self_of (fun c hc => toLower_fix_of_outChar c (h c hc)),
    stripChars_eq_self_of (fun c hc => pySpace_false_of_outChar c (h c hc)),
    map_eq_self_of (fun c hc => subChar_fix_of_outChar c (h c hc))]

theorem sanitizeChars_some {l y : List Char} (h : sanitizeChars l = some y) :
    ∃ c cs, sanitizeCore l = c :: cs ∧
      y = (if c.isDigit then '_' :: c :: cs else c :: cs) := by
  unfold sanitizeChars at h
  rcases hcore : sanitizeCore l with _ | ⟨c, cs⟩ <;> rw [hcore] at h
  · exact absurd h (by simp)
  · exact ⟨c, cs, rfl, by simpa using h.symm⟩

theorem sanitize_output_outChar {l y : List Char} (h : sanitizeChars l = some y) :
    ∀ c ∈ y, outChar c = true := by
  rcases sanitizeChars_some h with ⟨c, cs, hcore, rfl⟩
  have hall : ∀ d ∈ c :: cs, outChar d = true := by
    rw [← hcore]
    exact sanitizeCore_outChar l
  split
  · intro d hd
    rcases List.mem_cons.mp hd with rfl | hd'
    · decide
    · exact hall d hd'
  · exact hall

theorem sanitize_head_not_digit {l y : List Char} (h : sanitizeChars l = some y) :
    ∀ c cs, y = c :: cs → c.isDigit = false := by
  rcases sanitizeChars_some h with ⟨c, cs, hcore, rfl⟩
  intro d ds hds
  split at hds
  · cases hds
    decide
  · cases hds
    rename_i hdig
    simpa using hdig

theorem sanitizeChars_idem {l y : List Char} (h : sanitizeChars l = some y) :
    sanitizeChars y = some y := by
  have hout := sanitize_output_outChar h
  have hfix : sanitizeCore y = y := sanitizeCore_fix hout
  have hne : y ≠ [] := by
    rcases sanitizeChars_some h with ⟨c, cs, _, rfl⟩
    split <;> simp
  unfold sanitizeChars
  rw [hfix]
  rcases hy : y with _ | ⟨c, cs⟩
  · exact absurd hy hne
  · have hnd := sanitize_head_not_digit h c cs hy
    simp [hnd]

/-- C9 counterexample data: the sanitizer raises `IndexError` on the empty
string, and on `" a"` the code strips the blank first (yielding `"a"`) while
the claim's recipe, which has no stripping step, yields `"_a"`. -/
theorem sanitize_name_empty_vs_claim :
    sanitize_name "" = none ∧
    sanitize_name " a" = some "a" ∧
    sanitizeClaimRecipe " a" = "_a" ∧
    ("a" : String) ≠ "_a" := by
  refine ⟨rfl, rfl, rfl, by decide⟩

/-! ## Data model

The SQLite database: one registry table `_spreadsheet_meta` (modelled as an
association list from sanitized table name to its sanitized column list — the
comma-join/split round-trip of the source is the identity because sanitized
names are nonempty and comma-free), one physical table per spreadsheet, and
the in-process `current_spreadsheet` pointer. -/

/-- A stored row: the automatic integer `id` plus the cells that were actually
written; a column absent from `cells` holds SQL `NULL`. -/
structure Row where
  id : Nat
  cells : List (String × String)
deriving DecidableEq, Repr

/-- A physical table: its non-`id` columns in schema order, its rows in
insertion (= rowid) order, and its `sqlite_sequence` counter (the
`AUTOINCREMENT` state). -/
structure Table where
  cols : List String
  rows : List Row
  seq : Nat
deriving DecidableEq, Repr

/-- The whole storage state of a `SpreadsheetManager`. -/
structure Manager where
  meta : List (String × List String)
  tables : List (String × Table)
  current : Option String
deriving DecidableEq, Repr

/-- First-match association lookup (SQL `WHERE name = ?` on a unique key). -/
def alookup {β : Type} (k : String) : List (String × β) → Option β
  | [] => none
  | (k', v) :: rest => if k' = k then some v else alookup k rest

/-- Replace the value at a key, first match only (SQL `UPDATE ... WHERE
name = ?` on a unique key); no-op when the key is absent. -/
def assocUpdate {β : Type} (l : List (String × β)) (k : String) (v : β) : List (String × β) :=
  match l with
  | [] => []
  | (k', v') :: rest => if k' = k then (k, v) :: rest else (k', v') :: assocUpdate rest k v

/-- Remove every entry with the given key (SQL `DELETE ... WHERE name = ?`,
`DROP TABLE`). -/
def eraseKey {β : Type} (k : String) : List (String × β) → List (String × β)
  | [] => []
  | (k', v) :: rest => if k' = k then eraseKey k rest else (k', v) :: eraseKey k rest

/-- Python dict assignment `d[k] = v`: overwrite in place, else append. -/
def dictSet (l : List (String × String)) (k v : String) : List (String × String) :=
  match l with
  | [] => [(k, v)]
  | (k', v') :: rest => if k' = k then (k, v) :: rest else (k', v') :: dictSet rest k v

/-- Executable `Nodup` check for a column list. -/
def nodupB : List String → Bool
  | [] => true
  | c :: rest => !rest.contains c && nodupB rest

/-- Largest rowid present in a list of rows (`0` when empty). -/
def maxRowId (rows : List Row) : Nat :=
  rows.foldl (fun a r => max a r.id) 0

/-- A structured `{"success": ..., ...}` dictionary: `ok` is success with the
operation's payload, `err` is `{"success": False, "error": msg}`. -/
inductive Outcome (α : Type) where
  | ok (val : α)
  | err (msg : String)
deriving DecidableEq, Repr

/-- Python exceptions escaping an operation. -/
def indexErr : String := "IndexError: string index out of range"

/-- `sqlite3.OperationalError` from the trailing comma the source generates in
`CREATE TABLE` when the column list is empty. -/
def sqlSyntaxErr : String := "sqlite3.OperationalError: incomplete column list, syntax error"

/-- `sqlite3.OperationalError` from a bound parameter inside a DDL statement:
SQLite's `DEFAULT` clause only accepts a literal, never a `?` parameter. -/
def ddlParamErr : String := "sqlite3.OperationalError: parameter in DDL, syntax error"

/-- `sqlite3.OperationalError: table ... already exists`. -/
def tableExistsErr : String := "sqlite3.OperationalError: table already exists"

/-- `sqlite3.OperationalError: duplicate column name`. -/
def dupColumnErr : String := "sqlite3.OperationalError: duplicate column name"

/-- `sqlite3.OperationalError: no such table`. -/
def noTableErr : String := "sqlite3.OperationalError: no such table"

/-- `sqlite3.OperationalError: no such column`. -/
def noColumnErr : String := "sqlite3.OperationalError: no such column"

/-- `ValueError` from `csv.DictWriter` on a row key absent from `fieldnames`. -/
def extraKeyErr : String := "ValueError: dict contains fields not in fieldnames"

/-- `spreadsheet or self.current_spreadsheet` (callers pass `None` for an
omitted target, so falsiness coincides with `Option.orElse`). -/
def resolveTarget (m : Manager) (spreadsheet : Option String) : Option String :=
  match spreadsheet with
  | some t => some t
  | none => m.current

/-- `SpreadsheetManager.get_columns` (reads the registry; `[]` when the table
is unknown). -/
def get_columns (m : Manager) (table : String) : List String :=
  (alookup table m.meta).getD []

/-- `SpreadsheetManager.create_spreadsheet`.  The `CREATE TABLE` statement
lists `id` plus the sanitized columns, so SQLite fails on an empty column list
(trailing comma), on any duplicate among `id` and the columns, or when the
physical table already exists. -/
def sanitizeAll : List String → Option (List String)
  | [] => some []
  | c :: cs =>
    match sanitize_name c, sanitizeAll cs with
    | some s, some rest => some (s :: rest)
    | _, _ => none

def create_spreadsheet (m : Manager) (name : String) (columns : List String) :
    Except String (Outcome (String × List String) × Manager) :=
  match sanitize_name name with
  | none => .error indexErr
  | some table_name =>
    if (alookup table_name m.meta).isSome then
      .ok (.err ("Spreadsheet '" ++ name ++ "' already exists"), m)
    else
      match sanitizeAll columns with
      | none => .error indexErr
      | some sanitized_columns =>
        if sanitized_columns.isEmpty then .error sqlSyntaxErr
        else if !nodupB ("id" :: sanitized_columns) then .error dupColumnErr
        else if (alookup table_name m.tables).isSome then .error tableExistsErr
        else
          .ok (.ok (table_name, sanitized_columns),
            ⟨m.meta ++ [(table_name, sanitized_columns)],
             m.tables ++ [(table_name, ⟨sanitized_columns, [], 0⟩)],
             some table_name⟩)

/-- The loop building `sanitized_data` in `add_row`: sanitize each key
(raising on an empty one), keep the pair iff the key is registered, with
dict-overwrite semantics. -/
def buildData (columns : List String) (acc : List (String × String)) :
    List (String × String) → Option (List (String × String))
  | [] => some acc
  | (k, v) :: rest =>
    match sanitize_name k with
    | none => none
    | some sanitized_key =>
      buildData columns
        (if columns.contains sanitized_key then dictSet acc sanitized_key v else acc) rest

/-- `SpreadsheetManager.add_row`: the `INSERT` assigns the `AUTOINCREMENT`
rowid `max(sqlite_sequence, max rowid) + 1` and advances the sequence to
it. -/
def add_row (m : Manager) (data : List (String × String)) (spreadsheet : Option String) :
    Except String (Outcome Nat × Manager) :=
  match resolveTarget m spreadsheet with
  | none => .ok (.err "No spreadsheet selected", m)
  | some table =>
    match buildData (get_columns m table) [] data with
    | none => .error indexErr
    | some sanitized_data =>
      if sanitized_data.isEmpty then
        .ok (.err "No valid columns in data", m)
      else
        match alookup table m.tables with
        | none => .error noTableErr
        | some t =>
          if sanitized_data.any (fun kv => !t.cols.contains kv.1) then .error noColumnErr
          else
            .ok (.ok (max t.seq (maxRowId t.rows) + 1),
              ⟨m.meta,
               assocUpdate m.tables table
                 ⟨t.cols, t.rows ++ [⟨max t.seq (maxRowId t.rows) + 1, sanitized_data⟩],
                  max t.seq (maxRowId t.rows) + 1⟩,
               m.current⟩)

/-- `SpreadsheetManager.add_column`.  After the duplicate check the source
executes `ALTER TABLE "{table}" ADD COLUMN "{sanitized}" TEXT DEFAULT ?` with
a bound parameter; SQLite rejects parameters in DDL (`DEFAULT` takes only a
literal), so `sqlite3` raises `OperationalError` before any state change and
`default_value` is never consulted. -/
def add_column (m : Manager) (column_name : String) (default_value : String)
    (spreadsheet : Option String) : Except String (Outcome String × Manager) :=
  match resolveTarget m spreadsheet with
  | none => .ok (.err "No spreadsheet selected", m)
  | some table =>
    match sanitize_name column_name with
    | none => .error indexErr
    | some sanitized =>
      if (get_columns m table).contains sanitized then
        .ok (.err ("Column '" ++ column_name ++ "' already exists"), m)
      else
        let _ := default_value
        .error ddlParamErr

/-- `SpreadsheetManager.edit_cell`.  The `UPDATE` is executed and committed
before `rowcount` is inspected, so a miss leaves the (unchanged) state. -/
def edit_cell (m : Manager) (row_id : Nat) (column : String) (value : String)
    (spreadsheet : Option String) : Except String (Outcome Unit × Manager) :=
  match resolveTarget m spreadsheet with
  | none => .ok (.err "No spreadsheet selected", m)
  | some table =>
    match sanitize_name column with
    | none => .error indexErr
    | some sanitized_col =>
      if !(get_columns m table).contains sanitized_col then
        .ok (.err ("Column '" ++ column ++ "' not found"), m)
      else
        match alookup table m.tables with
        | none => .error noTableErr
        | some t =>
          if !t.cols.contains sanitized_col then .error noColumnErr
          else
            let rows' := t.rows.map (fun r =>
              if r.id = row_id then ⟨r.id, dictSet r.cells sanitized_col value⟩ else r)
            let m' : Manager :=
              ⟨m.meta, assocUpdate m.tables table ⟨t.cols, rows', t.seq⟩, m.current⟩
            if t.rows.any (fun r => r.id = row_id) then
              .ok (.ok (), m')
            else
              .ok (.err ("Row " ++ toString row_id ++ " not found"), m')

/-- `SpreadsheetManager.delete_row`.  `DELETE ... WHERE id = ?`; the miss is
detected from `rowcount` after the fact. -/
def delete_row (m : Manager) (row_id : Nat) (spreadsheet : Option String) :
    Except String (Outcome Unit × Manager) :=
  match resolveTarget m spreadsheet with
  | none => .ok (.err "No spreadsheet selected", m)
  | some table =>
    match alookup table m.tables with
    | none => .error noTableErr
    | some t =>
      let rows' := t.rows.filter (fun r => r.id != row_id)
      let m' : Manager := ⟨m.meta, assocUpdate m.tables table ⟨t.cols, rows', t.seq⟩, m.current⟩
      if rows'.length = t.rows.length then
        .ok (.err ("Row " ++ toString row_id ++ " not found"), m')
      else
        .ok (.ok (), m')

/-- `SpreadsheetManager.delete_column` — the rebuild-and-swap algorithm.
`columns.remove` drops the first occurrence; `CREATE TABLE "_temp_{table}"`
fails on an empty remaining column list (trailing comma), on a name clash
with an existing table, or a duplicate column; the `INSERT ... SELECT` copies
every row with its explicit id, which leaves the temp table's
`sqlite_sequence` at the largest copied id; `DROP` + `RENAME` then install
that table (and that sequence value) under the original name. -/
def delete_column (m : Manager) (column_name : String) (spreadsheet : Option String) :
    Except String (Outcome Unit × Manager) :=
  match resolveTarget m spreadsheet with
  | none => .ok (.err "No spreadsheet selected", m)
  | some table =>
    match sanitize_name column_name with
    | none => .error indexErr
    | some sanitized =>
      if !(get_columns m table).contains sanitized then
        .ok (.err ("Column '" ++ column_name ++ "' not found"), m)
      else
        let columns' := (get_columns m table).erase sanitized
        if columns'.isEmpty then .error sqlSyntaxErr
        else if (alookup ("_temp_" ++ table) m.tables).isSome then .error tableExistsErr
        else if !nodupB ("id" :: columns') then .error dupColumnErr
        else
          match alookup table m.tables with
          | none => .error noTableErr
          | some t =>
            if columns'.any (fun c => !t.cols.contains c) then .error noColumnErr
            else
              .ok (.ok (),
                ⟨assocUpdate m.meta table columns',
                 assocUpdate m.tables table
                   ⟨columns',
                    t.rows.map (fun r =>
                      ⟨r.id,
                       columns'.filterMap (fun c => (alookup c r.cells).map (fun v => (c, v)))⟩),
                    maxRowId t.rows⟩,
                 m.current⟩)

/-- One row of a `SELECT *` result as Python sees it: the `id` plus one entry
per physical column, `none` for `NULL`. -/
structure RowOut where
  id : Nat
  cells : List (String × Option String)
deriving DecidableEq, Repr

/-- `dict(row)` for one fetched row. -/
def rowToOut (cols : List String) (r : Row) : RowOut :=
  ⟨r.id, cols.map (fun c => (c, alookup c r.cells))⟩

/-- Insert a row into a list sorted by ascending id (`ORDER BY id`). -/
def insertById (r : Row) : List Row → List Row
  | [] => [r]
  | s :: rest => if r.id ≤ s.id then r :: s :: rest else s :: insertById r rest

/-- `SELECT ... ORDER BY id` (a stable sort; on the well-formed states of this
development the rows are already sorted and this is the identity). -/
def sortById (rows : List Row) : List Row :=
  rows.foldr insertById []

/-- The payload of a successful `get_data`. -/
structure GetData where
  spreadsheet : String
  columns : List String
  rows : List RowOut
deriving DecidableEq, Repr

/-- `SpreadsheetManager.get_data`: the `"columns"` key is `"id"` plus the
registry's column list, while each row dictionary comes from `SELECT *` over
the physical schema. -/
def get_data (m : Manager) (spreadsheet : Option String) :
    Except String (Outcome GetData × Manager) :=
  match resolveTarget m spreadsheet with
  | none => .ok (.err "No spreadsheet selected", m)
  | some table =>
    match alookup table m.tables with
    | none => .error noTableErr
    | some t =>
      .ok (.ok ⟨table, "id" :: get_columns m table, (sortById t.rows).map (rowToOut t.cols)⟩, m)

/-- `SpreadsheetManager.switch_spreadsheet`. -/
def switch_spreadsheet (m : Manager) (name : String) :
    Except String (Outcome String × Manager) :=
  match sanitize_name name with
  | none => .error indexErr
  | some table =>
    if (alookup table m.meta).isNone then
      .ok (.err ("Spreadsheet '" ++ name ++ "' not found"), m)
    else
      .ok (.ok table, ⟨m.meta, m.tables, some table⟩)

/-- `SpreadsheetManager.delete_spreadsheet`: `DROP TABLE IF EXISTS` plus the
registry `DELETE`, then the current pointer is cleared iff it pointed here. -/
def delete_spreadsheet (m : Manager) (name : String) :
    Except String (Outcome Unit × Manager) :=
  match sanitize_name name with
  | none => .error indexErr
  | some table =>
    if (alookup table m.meta).isNone then
      .ok (.err ("Spreadsheet '" ++ name ++ "' not found"), m)
    else
      .ok (.ok (),
        ⟨eraseKey table m.meta, eraseKey table m.tables,
         if m.current = some table then none else m.current⟩)

/-! ## CSV writer and reader (`csv` module, default dialect) -/

/-- Double every `"` (the writer's escaping inside a quoted field). -/
def escapeQuotes : List Char → List Char
  | [] => []
  | c :: cs => if c = '"' then '"' :: '"' :: escapeQuotes cs else c :: escapeQuotes cs

/-- `QUOTE_MINIMAL`: a field is quoted iff it contains the delimiter, the
quote character, or a line break. -/
def needsQuote (s : String) : Bool :=
  s.data.any (fun c => c = ',' || c = '"' || c = '\r' || c = '\n')

/-- Encode one field. -/
def renderField (s : String) : List Char :=
  if needsQuote s then '"' :: (escapeQuotes s.data ++ ['"']) else s.data

/-- Join encoded fields with the `,` delimiter. -/
def joinFields : List (List Char) → List Char
  | [] => []
  | [f] => f
  | f :: fs => f ++ ',' :: joinFields fs

/-- One CSV record: delimited fields plus the CRLF terminator. -/
def renderRecord (fields : List String) : List Char :=
  joinFields (fields.map renderField) ++ ['\r', '\n']

/-- A whole CSV file. -/
def renderCsv (records : List (List String)) : List Char :=
  (records.map renderRecord).flatten

/-- The field values `csv.DictWriter` emits for one fetched row, in
`fieldnames` order: `str` of the id, the stored text, the empty string for
`NULL` (`None`) and for a fieldname missing from the row (`restval`). -/
def rowRecord (fieldnames : List String) (r : RowOut) : List String :=
  fieldnames.map (fun f =>
    if f = "id" then toString r.id
    else match alookup f r.cells with
      | some (some s) => s
      | some none => ""
      | none => "")

/-- `SpreadsheetManager.export_csv`.  The file-system side is abstracted to
the produced file content (the success payload).  `DictWriter` raises
`ValueError` when a row dictionary carries a key outside `fieldnames`. -/
def export_csv (m : Manager) (spreadsheet : Option String) :
    Except String (Outcome String × Manager) :=
  match resolveTarget m spreadsheet with
  | none => .ok (.err "No spreadsheet selected", m)
  | some table =>
    match get_data m (some table) with
    | .error e => .error e
    | .ok (.err e, m') => .ok (.err e, m')
    | .ok (.ok d, m') =>
      if d.rows.any (fun r => r.cells.any (fun kv => !d.columns.contains kv.1)) then
        .error extraKeyErr
      else
        .ok (.ok (String.mk (renderCsv (d.columns :: d.rows.map (rowRecord d.columns)))), m')

/-- `csv.reader` over the file content: a character-level state machine.
`inQ` is "inside a quoted section", `started` is "the current field has begun
(text seen or an opening quote)", `cur` is the current field reversed,
`fields` the fields of the current record, `recs` the finished records.
A blank line yields the empty record, a `""` pair inside quotes a literal
quote, and CR, LF or CRLF all terminate a record, as in Python. -/
def csvScan (input : List Char) (inQ started : Bool) (cur : List Char)
    (fields : List String) (recs : List (List String)) : List (List String) :=
  match input with
  | [] =>
    if inQ then recs ++ [fields ++ [String.mk cur.reverse]]
    else if fields.isEmpty && !started && cur.isEmpty then recs
    else recs ++ [fields ++ [String.mk cur.reverse]]
  | c :: rest =>
    if inQ then
      if c = '"' then
        if rest.head? = some '"' then csvScan rest.tail true true ('"' :: cur) fields recs
        else csvScan rest false true cur fields recs
      else csvScan rest true true (c :: cur) fields recs
    else if c = ',' then
      csvScan rest false false [] (fields ++ [String.mk cur.reverse]) recs
    else if c = '\r' || c = '\n' then
      if c = '\r' && rest.head? = some '\n' then
        if fields.isEmpty && !started then csvScan rest.tail false false [] [] (recs ++ [[]])
        else csvScan rest.tail false false [] [] (recs ++ [fields ++ [String.mk cur.reverse]])
      else
        if fields.isEmpty && !started then csvScan rest false false [] [] (recs ++ [[]])
        else csvScan rest false false [] [] (recs ++ [fields ++ [String.mk cur.reverse]])
    else if c = '"' then
      if !started && cur.isEmpty then csvScan rest true true [] fields recs
      else csvScan rest false true ('"' :: cur) fields recs
    else csvScan rest false true (c :: cur) fields recs
termination_by input.length
decreasing_by
  all_goals simp [List.length_tail]
  all_goals omega

/-- Parse a CSV file into its records. -/
def parseCsv (content : List Char) : List (List String) :=
  csvScan content false false [] [] []

/-! ## Plot-type heuristic (`tools.py`, `plot_data_tool`) -/

/-- A run of decimal digits with single underscores allowed strictly between
digits (Python's numeric-literal grouping, accepted by `float`). -/
def digitsRun : List Char → Bool
  | [] => false
  | c :: rest => c.isDigit && digitsRunRest rest
where
  digitsRunRest : List Char → Bool
    | [] => true
    | '_' :: c :: rest => c.isDigit && digitsRunRest rest
    | '_' :: [] => false
    | c :: rest => c.isDigit && digitsRunRest rest

/-- Split at the first character satisfying `p`: the prefix before it and,
when found, the remainder after it. -/
def splitFirst (p : Char → Bool) : List Char → List Char × Option (List Char)
  | [] => ([], none)
  | c :: rest =>
    if p c then ([], some rest)
    else
      let (a, b) := splitFirst p rest
      (c :: a, b)

/-- The mantissa part of a float literal: digits, `digits.`, `.digits` or
`digits.digits`. -/
def mantissaOk (l : List Char) : Bool :=
  match splitFirst (fun c => c = '.') l with
  | (ip, none) => digitsRun ip
  | (ip, some fp) =>
    !(ip.isEmpty && fp.isEmpty) &&
    (ip.isEmpty || digitsRun ip) &&
    (fp.isEmpty || digitsRun fp)

/-- An exponent part: optional sign then digits. -/
def exponentOk (l : List Char) : Bool :=
  match l with
  | '+' :: rest => digitsRun rest
  | '-' :: rest => digitsRun rest
  | rest => digitsRun rest

/-- The body of a float literal after the optional sign: either a special
word (`inf`, `infinity`, `nan`, case-insensitive) or mantissa with optional
exponent. -/
def floatBody (l : List Char) : Bool :=
  let low := l.map Char.toLower
  if low = "inf".data || low = "infinity".data || low = "nan".data then true
  else
    match splitFirst (fun c => c = 'e' || c = 'E') l with
    | (mant, none) => mantissaOk mant
    | (mant, some ex) => mantissaOk mant && exponentOk ex

/-- Acceptance of Python's `float(str)`: surrounding whitespace stripped,
optional sign, then a float body. -/
def pyFloat (l : List Char) : Bool :=
  match stripChars l with
  | '+' :: rest => floatBody rest
  | '-' :: rest => floatBody rest
  | rest => floatBody rest && !rest.isEmpty

/-- `float(str(val).replace(",", "").replace("$", ""))` succeeds. -/
def parsesAsFloat (s : String) : Bool :=
  pyFloat (s.data.filter (fun c => c ≠ ',' && c ≠ '$'))

/-- `row.get(col, "")` on a fetched row dictionary. -/
def rowGet (r : RowOut) (col : String) : Option String :=
  match alookup col r.cells with
  | some v => v
  | none => some ""

/-- Python truthiness of a cell value: `None` and `""` are falsy. -/
def pyTruthy (v : Option String) : Bool :=
  match v with
  | none => false
  | some s => !s.isEmpty

/-- `is_numeric_column` of `plot_data_tool`: true iff some row holds a truthy
value that parses as a float after `,`/`$` removal. -/
def is_numeric_column (rows : List RowOut) (col : String) : Bool :=
  rows.any (fun row => pyTruthy (rowGet row col) && parsesAsFloat ((rowGet row col).getD ""))

/-- The columns `plot_data_tool` considers plottable. -/
def plottableCols (columns : List String) : List String :=
  columns.filter (fun c => c ≠ "id")

/-- `numeric_cols` of `plot_data_tool`. -/
def numericCols (rows : List RowOut) (columns : List String) : List String :=
  (plottableCols columns).filter (is_numeric_column rows)

/-- `categorical_cols` of `plot_data_tool`. -/
def categoricalCols (rows : List RowOut) (columns : List String) : List String :=
  (plottableCols columns).filter (fun c => !(numericCols rows columns).contains c)

/-- The auto-selection cascade of `plot_data_tool` when `plot_type` is not
supplied. -/
def autoPlotType (rows : List RowOut) (columns : List String) : String :=
  let numeric_cols := numericCols rows columns
  let categorical_cols := categoricalCols rows columns
  if numeric_cols.length ≥ 2 then "scatter"
  else if numeric_cols.length = 1 && !categorical_cols.isEmpty then "bar"
  else if numeric_cols.length = 1 then "histogram"
  else if !categorical_cols.isEmpty then "bar"
  else "bar"

/-! ## Operation sequences and the state invariant -/

/-- One storage-layer call, as issued by the tool layer. -/
inductive Op where
  | create (name : String) (columns : List String)
  | addRow (data : List (String × String)) (sp : Option String)
  | addColumn (column_name default_value : String) (sp : Option String)
  | editCell (row_id : Nat) (column value : String) (sp : Option String)
  | deleteRow (row_id : Nat) (sp : Option String)
  | deleteColumn (column_name : String) (sp : Option String)
  | getData (sp : Option String)
  | switchSheet (name : String)
  | exportCsv (sp : Option String)
  | deleteSheet (name : String)
deriving DecidableEq, Repr

/-- The state after one call.  A structured failure keeps the state the call
returned; an escaping exception keeps the previous state (on the well-formed
states of this development every raising statement fails during prepare,
before any database mutation). -/
def applyOp (m : Manager) : Op → Manager
  | .create name columns =>
    match create_spreadsheet m name columns with
    | .ok (_, m') => m'
    | .error _ => m
  | .addRow data sp =>
    match add_row m data sp with
    | .ok (_, m') => m'
    | .error _ => m
  | .addColumn c d sp =>
    match add_column m c d sp with
    | .ok (_, m') => m'
    | .error _ => m
  | .editCell i c v sp =>
    match edit_cell m i c v sp with
    | .ok (_, m') => m'
    | .error _ => m
  | .deleteRow i sp =>
    match delete_row m i sp with
    | .ok (_, m') => m'
    | .error _ => m
  | .deleteColumn c sp =>
    match delete_column m c sp with
    | .ok (_, m') => m'
    | .error _ => m
  | .getData sp =>
    match get_data m sp with
    | .ok (_, m') => m'
    | .error _ => m
  | .switchSheet name =>
    match switch_spreadsheet m name with
    | .ok (_, m') => m'
    | .error _ => m
  | .exportCsv sp =>
    match export_csv m sp with
    | .ok (_, m') => m'
    | .error _ => m
  | .deleteSheet name =>
    match delete_spreadsheet m name with
    | .ok (_, m') => m'
    | .error _ => m

/-- A fresh database. -/
def init : Manager := ⟨[], [], none⟩

/-- Run a sequence of calls. -/
def run (m : Manager) : List Op → Manager
  | [] => m
  | op :: ops => run (applyOp m op) ops

/-- A decidable predicate on the content of an `Option`, false on `none`. -/
def optionHolds {α : Type} (P : α → Prop) : Option α → Prop
  | none => False
  | some a => P a

instance {α : Type} (P : α → Prop) [DecidablePred P] :
    (o : Option α) → Decidable (optionHolds P o)
  | none => isFalse (fun h => h)
  | some a =>
    if h : P a then isTrue h else isFalse h

/-- Well-formedness of one physical table: at least one user column, no
duplicate or `id`-clashing column name, rows strictly sorted by id, and the
`AUTOINCREMENT` sequence at or above every rowid. -/
def WfTable (t : Table) : Prop :=
  t.cols ≠ [] ∧ t.cols.Nodup ∧ "id" ∉ t.cols ∧
  List.Pairwise (fun a b => a.id < b.id) t.rows ∧
  (∀ r ∈ t.rows, r.id ≤ t.seq)

instance (t : Table) : Decidable (WfTable t) := by
  unfold WfTable
  infer_instance

/-- Well-formedness of the database: registry and physical tables list the
same names in the same order without duplicates, and each registry entry's
column list coincides with its well-formed physical table's schema. -/
def Wf (m : Manager) : Prop :=
  m.meta.map Prod.fst = m.tables.map Prod.fst ∧
  (m.meta.map Prod.fst).Nodup ∧
  (∀ p ∈ m.meta, optionHolds (fun t => t.cols = p.2 ∧ WfTable t) (alookup p.1 m.tables))

instance (m : Manager) : Decidable (Wf m) := by
  unfold Wf
  infer_instance

/-! ## Association-list lemmas -/

theorem alookup_eq_none_iff {β : Type} {k : String} {l : List (String × β)} :
    alookup k l = none ↔ k ∉ l.map Prod.fst := by
  induction l with
  | nil => simp [alookup]
  | cons p rest ih =>
    rcases p with ⟨k', v⟩
    by_cases h : k' = k
    · subst h
      simp [alookup]
    · simp [alookup, h, ih, Ne.symm h]

theorem alookup_isSome_iff {β : Type} {k : String} {l : List (String × β)} :
    (alookup k l).isSome = true ↔ k ∈ l.map Prod.fst := by
  constructor
  · intro h
    by_contra hmem
    rw [alookup_eq_none_iff.mpr hmem] at h
    simp at h
  · intro hmem
    rcases ho : alookup k l with _ | v
    · exact absurd hmem (alookup_eq_none_iff.mp ho)
    · rfl

theorem alookup_mem {β : Type} {k : String} {v : β} {l : List (String × β)}
    (h : alookup k l = some v) : (k, v) ∈ l := by
  induction l with
  | nil => simp [alookup] at h
  | cons p rest ih =>
    rcases p with ⟨k', v'⟩
    by_cases hk : k' = k
    · subst hk
      simp [alookup] at h
      simp [h]
    · simp [alookup, hk] at h
      exact List.mem_cons_of_mem _ (ih h)

theorem mem_alookup {β : Type} {k : String} {v : β} {l : List (String × β)}
    (hnd : (l.map Prod.fst).Nodup) (h : (k, v) ∈ l) : alookup k l = some v := by
  induction l with
  | nil => simp at h
  | cons p rest ih =>
    rcases p with ⟨k', v'⟩
    rcases List.mem_cons.mp h with heq | hmem
    · cases heq
      simp [alookup]
    · have hk : k' ≠ k := by
        rintro rfl
        exact (List.nodup_cons.mp hnd).1 (List.mem_map.mpr ⟨(k', v), hmem, rfl⟩)
      simp [alookup, hk]
      exact ih (List.nodup_cons.mp hnd).2 hmem

theorem alookup_append {β : Type} (k : String) (l l' : List (String × β)) :
    alookup k (l ++ l') = ((alookup k l).rec (alookup k l') (fun v => some v)) := by
  induction l with
  | nil => simp [alookup]
  | cons p rest ih =>
    rcases p with ⟨k', v⟩
    by_cases h : k' = k <;> simp [alookup, h, ih]

theorem map_fst_assocUpdate {β : Type} (l : List (String × β)) (k : String) (v : β) :
    (assocUpdate l k v).map Prod.fst = l.map Prod.fst := by
  induction l with
  | nil => rfl
  | cons p rest ih =>
    rcases p with ⟨k', v'⟩
    by_cases h : k' = k <;> simp [assocUpdate, h, ih]

theorem alookup_assocUpdate_self {β : Type} (l : List (String × β)) (k : String) (v : β) :
    alookup k (assocUpdate l k v) = (alookup k l).map (fun _ => v) := by
  induction l with
  | nil => rfl
  | cons p rest ih =>
    rcases p with ⟨k', v'⟩
    by_cases h : k' = k <;> simp [assocUpdate, alookup, h, ih]

theorem alookup_assocUpdate_ne {β : Type} {k' k : String} (l : List (String × β)) (v : β)
    (h : k' ≠ k) : alookup k' (assocUpdate l k v) = alookup k' l := by
  induction l with
  | nil => rfl
  | cons p rest ih =>
    rcases p with ⟨k0, v0⟩
    rw [assocUpdate]
    by_cases h0 : k0 = k
    · subst h0
      rw [if_pos rfl]
      rw [alookup, alookup, if_neg (Ne.symm h), if_neg (Ne.symm h)]
    · rw [if_neg h0, alookup, alookup]
      by_cases h1 : k0 = k' <;> simp [h1, ih]

theorem assocUpdate_cancel {β : Type} {l : List (String × β)} {k : String} {v : β}
    (h : alookup k l = some v) : assocUpdate l k v = l := by
  induction l with
  | nil => rfl
  | cons p rest ih =>
    rcases p with ⟨k', v'⟩
    by_cases hk : k' = k
    · subst hk
      simp [alookup] at h
      simp [assocUpdate, h]
    · simp [alookup, hk] at h
      simp [assocUpdate, hk, ih h]

theorem mem_eraseKey {β : Type} {p : String × β} {k : String} {l : List (String × β)} :
    p ∈ eraseKey k l ↔ p ∈ l ∧ p.1 ≠ k := by
  induction l with
  | nil => simp [eraseKey]
  | cons q rest ih =>
    rcases q with ⟨k', v'⟩
    rw [eraseKey]
    by_cases h : k' = k
    · subst h
      rw [if_pos rfl, ih]
      constructor
      · rintro ⟨hm, hne⟩
        exact ⟨List.mem_cons_of_mem _ hm, hne⟩
      · rintro ⟨hm, hne⟩
        rcases List.mem_cons.mp hm with rfl | hm'
        · exact absurd rfl hne
        · exact ⟨hm', hne⟩
    · rw [if_neg h]
      constructor
      · intro hm
        rcases List.mem_cons.mp hm with rfl | hm'
        · exact ⟨List.mem_cons_self _ _, h⟩
        · rcases ih.mp hm' with ⟨hm'', hne⟩
          exact ⟨List.mem_cons_of_mem _ hm'', hne⟩
      · rintro ⟨hm, hne⟩
        rcases List.mem_cons.mp hm with rfl | hm'
        · exact List.mem_cons_self _ _
        · exact List.mem_cons_of_mem _ (ih.mpr ⟨hm', hne⟩)

theorem map_fst_eraseKey {β : Type} (k : String) (l : List (String × β)) :
    (eraseKey k l).map Prod.fst = (l.map Prod.fst).filter (fun n => n ≠ k) := by
  induction l with
  | nil => rfl
  | cons p rest ih =>
    rcases p with ⟨k', v'⟩
    by_cases h : k' = k <;> simp [eraseKey, h, ih, List.filter_cons]

theorem alookup_eraseKey_self {β : Type} (k : String) (l : List (String × β)) :
    alookup k (eraseKey k l) = none := by
  rw [alookup_eq_none_iff, map_fst_eraseKey]
  simp

theorem alookup_eraseKey_ne {β : Type} {k' k : String} (l : List (String × β))
    (h : k' ≠ k) : alookup k' (eraseKey k l) = alookup k' l := by
  induction l with
  | nil => rfl
  | cons p rest ih =>
    rcases p with ⟨k0, v0⟩
    rw [eraseKey]
    by_cases h0 : k0 = k
    · subst h0
      rw [if_pos rfl, ih, alookup, if_neg (Ne.symm h)]
    · rw [if_neg h0, alookup, alookup]
      by_cases h1 : k0 = k' <;> simp [h1, ih]

theorem nodupB_iff {l : List String} : nodupB l = true ↔ l.Nodup := by
  induction l with
  | nil => simp [nodupB]
  | cons c rest ih =>
    simp [nodupB, ih, List.nodup_cons, List.elem_iff]

theorem foldl_max_init_le (l : List Row) (a : Nat) :
    a ≤ l.foldl (fun a r => max a r.id) a := by
  induction l generalizing a with
  | nil => exact Nat.le_refl a
  | cons r rest ih =>
    exact Nat.le_trans (Nat.le_max_left a r.id) (ih (max a r.id))

theorem le_maxRowId {r : Row} {l : List Row} (h : r ∈ l) : r.id ≤ maxRowId l := by
  unfold maxRowId
  generalize 0 = a
  induction l generalizing a with
  | nil => simp at h
  | cons s rest ih =>
    rcases List.mem_cons.mp h with rfl | hm
    · exact Nat.le_trans (Nat.le_max_right a r.id) (foldl_max_init_le rest _)
    · exact ih hm _

theorem alookup_map_pairs {β : Type} (f : String) (g : String → β) (l : List String) :
    alookup f (l.map (fun c => (c, g c))) = if f ∈ l then some (g f) else none := by
  induction l with
  | nil => simp [alookup]
  | cons c rest ih =>
    by_cases h : c = f
    · subst h
      simp [alookup]
    · simp [alookup, h, ih, Ne.symm h]

theorem alookup_filterMap_none (c : String) (cells : List (String × String))
    {cols : List String} (h : c ∉ cols) :
    alookup c (cols.filterMap (fun c' => (alookup c' cells).map (fun v => (c', v)))) = none := by
  induction cols with
  | nil => rfl
  | cons c0 rest ih =>
    have hne : c0 ≠ c := by
      rintro rfl
      exact h (List.mem_cons_self _ _)
    have hnm : c ∉ rest := fun hm => h (List.mem_cons_of_mem _ hm)
    rw [List.filterMap_cons]
    rcases alookup c0 cells with _ | v
    · exact ih hnm
    · simp [alookup, hne, ih hnm]

theorem alookup_filterMap_restrict (c : String) (cells : List (String × String))
    {cols : List String} (hmem : c ∈ cols) (hnd : cols.Nodup) :
    alookup c (cols.filterMap (fun c' => (alookup c' cells).map (fun v => (c', v)))) =
      alookup c cells := by
  induction cols with
  | nil => simp at hmem
  | cons c0 rest ih =>
    rw [List.filterMap_cons]
    by_cases h : c0 = c
    · subst h
      have hnm : c0 ∉ rest := (List.nodup_cons.mp hnd).1
      rcases hv : alookup c0 cells with _ | v
      · simp only [Option.map_none']
        rw [alookup_filterMap_none c0 cells hnm]
      · simp [alookup, hv]
    · have hm' : c ∈ rest := by
        rcases List.mem_cons.mp hmem with rfl | hm
        · exact absurd rfl h
        · exact hm
      rcases alookup c0 cells with _ | v
      · exact ih hm' (List.nodup_cons.mp hnd).2
      · simp [alookup, h, ih hm' (List.nodup_cons.mp hnd).2]

/-! ## Consequences of well-formedness -/

theorem wf_lookup {m : Manager} {n : String} {cols : List String} (hwf : Wf m)
    (h : alookup n m.meta = some cols) :
    ∃ t, alookup n m.tables = some t ∧ t.cols = cols ∧ WfTable t := by
  have hmem : (n, cols) ∈ m.meta := alookup_mem h
  have := hwf.2.2 (n, cols) hmem
  rcases ht : alookup n m.tables with _ | t
  · rw [ht] at this
    exact this.elim
  · rw [ht] at this
    exact ⟨t, rfl, this.1, this.2⟩

theorem wf_tables_none {m : Manager} {n : String} (hwf : Wf m)
    (h : alookup n m.meta = none) : alookup n m.tables = none := by
  rw [alookup_eq_none_iff] at h ⊢
  rw [← hwf.1]
  exact h

theorem wf_meta_none {m : Manager} {n : String} (hwf : Wf m)
    (h : alookup n m.tables = none) : alookup n m.meta = none := by
  rw [alookup_eq_none_iff] at h ⊢
  rw [hwf.1]
  exact h

theorem insertById_sorted {r : Row} {rows : List Row} (h : ∀ s ∈ rows, r.id ≤ s.id) :
    insertById r rows = r :: rows := by
  cases rows with
  | nil => rfl
  | cons s rest =>
    rw [insertById, if_pos (h s (List.mem_cons_self s rest))]

theorem sortById_sorted {rows : List Row}
    (h : List.Pairwise (fun a b => a.id < b.id) rows) : sortById rows = rows := by
  induction rows with
  | nil => rfl
  | cons r rest ih =>
    have hpw := List.pairwise_cons.mp h
    have : sortById (r :: rest) = insertById r (sortById rest) := rfl
    rw [this, ih hpw.2, insertById_sorted (fun s hs => Nat.le_of_lt (hpw.1 s hs))]

/-- `init` is well-formed. -/
theorem wf_init : Wf init := by
  refine ⟨rfl, List.nodup_nil, ?_⟩
  intro p hp
  simp [init] at hp

/-! ## Preservation of well-formedness by every operation -/


theorem wf_create {m m' : Manager} {name : String} {columns : List String}
    {res : Outcome (String × List String)} (hwf : Wf m)
    (h : create_spreadsheet m name columns = .ok (res, m')) : Wf m' := by
  unfold create_spreadsheet at h
  rcases hs : sanitize_name name with _ | table_name <;> rw [hs] at h <;> simp only [] at h
  · exact absurd h (by simp)
  by_cases hex : (alookup table_name m.meta).isSome
  · rw [if_pos hex] at h
    cases h
    exact hwf
  rw [if_neg hex] at h
  rcases hcols : sanitizeAll columns with _ | sanitized_columns <;> rw [hcols] at h <;>
    simp only [] at h
  · exact absurd h (by simp)
  by_cases hemp : sanitized_columns.isEmpty
  · rw [if_pos hemp] at h
    exact absurd h (by simp)
  rw [if_neg hemp] at h
  by_cases hnd : !nodupB ("id" :: sanitized_columns)
  · rw [if_pos hnd] at h
    exact absurd h (by simp)
  rw [if_neg hnd] at h
  by_cases hext : (alookup table_name m.tables).isSome
  · rw [if_pos hext] at h
    exact absurd h (by simp)
  rw [if_neg hext] at h
  cases h
  have hnotin : table_name ∉ m.meta.map Prod.fst := by
    rw [← alookup_eq_none_iff]
    exact Option.not_isSome_iff_eq_none.mp hex
  have hidnd : ("id" :: sanitized_columns).Nodup := by
    rw [← nodupB_iff]
    rcases hb : nodupB ("id" :: sanitized_columns)
    · rw [hb] at hnd
      exact absurd rfl hnd
    · rfl
  refine ⟨?_, ?_, ?_⟩
  · simp only [List.map_append, List.map_cons, List.map_nil]
    rw [hwf.1]
  · simp only [List.map_append, List.map_cons, List.map_nil]
    rw [List.nodup_append]
    refine ⟨hwf.2.1, List.nodup_singleton _, ?_⟩
    intro a ha hb
    simp only [List.mem_singleton] at hb
    subst hb
    exact hnotin ha
  · intro p hp
    rcases List.mem_append.mp hp with hold | hnew
    · have hne : p.1 ≠ table_name := by
        rintro heq
        exact hnotin (heq ▸ List.mem_map.mpr ⟨p, hold, rfl⟩)
      rw [alookup_append]
      have hone := hwf.2.2 p hold
      rcases ho : alookup p.1 m.tables with _ | t
      · rw [ho] at hone
        exact hone.elim
      · rw [ho] at hone
        exact hone
    · simp only [List.mem_singleton] at hnew
      subst hnew
      rw [alookup_append, Option.not_isSome_iff_eq_none.mp hext]
      simp only [alookup, if_pos rfl, optionHolds]
      refine ⟨rfl, ?_, (List.nodup_cons.mp hidnd).2, ?_, List.Pairwise.nil, ?_⟩
      · intro hcontra
        rw [List.isEmpty_iff] at hemp
        exact hemp hcontra
      · exact fun hid => (List.nodup_cons.mp hidnd).1 hid
      · intro r hr
        simp at hr

theorem wf_assocUpdate_tables {m : Manager} {table : String} {cols : List String} {t t' : Table}
    (hwf : Wf m) (hm : alookup table m.meta = some cols) (ht : alookup table m.tables = some t)
    (hwt : WfTable t') (hc : t'.cols = cols) {cur : Option String} :
    Wf ⟨m.meta, assocUpdate m.tables table t', cur⟩ := by
  refine ⟨?_, hwf.2.1, ?_⟩
  · rw [map_fst_assocUpdate]
    exact hwf.1
  · intro p hp
    rcases p with ⟨pn, pc⟩
    by_cases hpt : pn = table
    · have hlook : alookup pn m.meta = some pc := mem_alookup hwf.2.1 hp
      rw [hpt, hm] at hlook
      cases hlook
      simp only
      rw [hpt, alookup_assocUpdate_self, ht]
      exact ⟨hc, hwt⟩
    · simp only
      rw [alookup_assocUpdate_ne _ _ hpt]
      exact hwf.2.2 ⟨pn, pc⟩ hp

theorem wf_assocUpdate_both {m : Manager} {table : String} {cols : List String} {t t' : Table}
    (hwf : Wf m) (hm : alookup table m.meta = some cols) (ht : alookup table m.tables = some t)
    (hwt : WfTable t') {cur : Option String} :
    Wf ⟨assocUpdate m.meta table t'.cols, assocUpdate m.tables table t', cur⟩ := by
  have hnames : (assocUpdate m.meta table t'.cols).map Prod.fst = m.meta.map Prod.fst :=
    map_fst_assocUpdate _ _ _
  refine ⟨?_, ?_, ?_⟩
  · rw [hnames, map_fst_assocUpdate]
    exact hwf.1
  · rw [hnames]
    exact hwf.2.1
  · intro p hp
    have hnd' : ((assocUpdate m.meta table t'.cols).map Prod.fst).Nodup := by
      rw [hnames]
      exact hwf.2.1
    rcases p with ⟨pn, pc⟩
    have hlook : alookup pn (assocUpdate m.meta table t'.cols) = some pc :=
      mem_alookup hnd' hp
    by_cases hpt : pn = table
    · rw [hpt, alookup_assocUpdate_self, hm] at hlook
      simp only [Option.map_some'] at hlook
      cases hlook
      simp only
      rw [hpt, alookup_assocUpdate_self, ht]
      exact ⟨rfl, hwt⟩
    · rw [alookup_assocUpdate_ne _ _ hpt] at hlook
      simp only
      rw [alookup_assocUpdate_ne _ _ hpt]
      exact hwf.2.2 ⟨pn, pc⟩ (alookup_mem hlook)

theorem wf_add_row {m m' : Manager} {data : List (String × String)} {sp : Option String}
    {res : Outcome Nat} (hwf : Wf m) (h : add_row m data sp = .ok (res, m')) : Wf m' := by
  unfold add_row at h
  rcases hr : resolveTarget m sp with _ | table <;> rw [hr] at h <;> simp only [] at h
  · cases h
    exact hwf
  rcases hb : buildData (get_columns m table) [] data with _ | sd <;> rw [hb] at h <;>
    simp only [] at h
  · exact absurd h (by simp)
  by_cases hemp : sd.isEmpty
  · rw [if_pos hemp] at h
    cases h
    exact hwf
  rw [if_neg hemp] at h
  rcases ht : alookup table m.tables with _ | t <;> rw [ht] at h <;> simp only [] at h
  · exact absurd h (by simp)
  by_cases hany : sd.any (fun kv => !t.cols.contains kv.1)
  · rw [if_pos hany] at h
    exact absurd h (by simp)
  rw [if_neg hany] at h
  cases h
  rcases hmeta : alookup table m.meta with _ | cols0
  · rw [wf_tables_none hwf hmeta] at ht
    exact absurd ht (by simp)
  rcases wf_lookup hwf hmeta with ⟨t1, ht1, hc1, hwt1⟩
  rw [ht] at ht1
  cases ht1
  have hwt' : WfTable ⟨t.cols, t.rows ++ [⟨max t.seq (maxRowId t.rows) + 1, sd⟩],
      max t.seq (maxRowId t.rows) + 1⟩ := by
    obtain ⟨hne, hnd, hid, hpw, hseq⟩ := hwt1
    refine ⟨hne, hnd, hid, ?_, ?_⟩
    · rw [List.pairwise_append]
      refine ⟨hpw, List.pairwise_singleton _ _, ?_⟩
      intro a ha b hb
      simp only [List.mem_singleton] at hb
      subst hb
      simp only
      have := le_maxRowId ha
      omega
    · intro r hr'
      rcases List.mem_append.mp hr' with hold | hnew
      · have := hseq r hold
        simp only
        omega
      · simp only [List.mem_singleton] at hnew
        subst hnew
        simp
  exact wf_assocUpdate_tables hwf hmeta ht hwt' hc1

theorem wf_edit_cell {m m' : Manager} {row_id : Nat} {column value : String} {sp : Option String}
    {res : Outcome Unit} (hwf : Wf m) (h : edit_cell m row_id column value sp = .ok (res, m')) :
    Wf m' := by
  unfold edit_cell at h
  rcases hr : resolveTarget m sp with _ | table <;> rw [hr] at h <;> simp only [] at h
  · cases h
    exact hwf
  rcases hs : sanitize_name column with _ | sc <;> rw [hs] at h <;> simp only [] at h
  · exact absurd h (by simp)
  by_cases hc : !(get_columns m table).contains sc
  · rw [if_pos hc] at h
    cases h
    exact hwf
  rw [if_neg hc] at h
  rcases ht : alookup table m.tables with _ | t <;> rw [ht] at h <;> simp only [] at h
  · exact absurd h (by simp)
  by_cases hc2 : !t.cols.contains sc
  · rw [if_pos hc2] at h
    exact absurd h (by simp)
  rw [if_neg hc2] at h
  rcases hmeta : alookup table m.meta with _ | cols0
  · rw [wf_tables_none hwf hmeta] at ht
    exact absurd ht (by simp)
  rcases wf_lookup hwf hmeta with ⟨t1, ht1, hc1, hwt1⟩
  rw [ht] at ht1
  cases ht1
  have hwt' : WfTable ⟨t.cols,
      t.rows.map (fun r =>
        if r.id = row_id then ⟨r.id, dictSet r.cells sc value⟩ else r), t.seq⟩ := by
    obtain ⟨hne, hnd, hid, hpw, hseq⟩ := hwt1
    have hidpres : ∀ r : Row,
        (if r.id = row_id then (⟨r.id, dictSet r.cells sc value⟩ : Row) else r).id = r.id := by
      intro r
      by_cases hr' : r.id = row_id <;> simp [hr']
    refine ⟨hne, hnd, hid, ?_, ?_⟩
    · refine List.Pairwise.map _ ?_ hpw
      intro a b hab
      rw [hidpres a, hidpres b]
      exact hab
    · intro r hr'
      rcases List.mem_map.mp hr' with ⟨r0, hr0, rfl⟩
      rw [hidpres r0]
      exact hseq r0 hr0
  split at h <;> cases h <;> exact wf_assocUpdate_tables hwf hmeta ht hwt' hc1

theorem wf_delete_row {m m' : Manager} {row_id : Nat} {sp : Option String}
    {res : Outcome Unit} (hwf : Wf m) (h : delete_row m row_id sp = .ok (res, m')) : Wf m' := by
  unfold delete_row at h
  rcases hr : resolveTarget m sp with _ | table <;> rw [hr] at h <;> simp only [] at h
  · cases h
    exact hwf
  rcases ht : alookup table m.tables with _ | t <;> rw [ht] at h <;> simp only [] at h
  · exact absurd h (by simp)
  rcases hmeta : alookup table m.meta with _ | cols0
  · rw [wf_tables_none hwf hmeta] at ht
    exact absurd ht (by simp)
  rcases wf_lookup hwf hmeta with ⟨t1, ht1, hc1, hwt1⟩
  rw [ht] at ht1
  cases ht1
  have hwt' : WfTable ⟨t.cols, t.rows.filter (fun r => r.id != row_id), t.seq⟩ := by
    obtain ⟨hne, hnd, hid, hpw, hseq⟩ := hwt1
    refine ⟨hne, hnd, hid, List.Pairwise.filter _ hpw, ?_⟩
    intro r hr'
    exact hseq r (List.mem_of_mem_filter hr')
  split at h <;> cases h <;> exact wf_assocUpdate_tables hwf hmeta ht hwt' hc1

theorem wf_add_column {m m' : Manager} {cn dv : String} {sp : Option String}
    {res : Outcome String} (hwf : Wf m) (h : add_column m cn dv sp = .ok (res, m')) : Wf m' := by
  unfold add_column at h
  rcases hr : resolveTarget m sp with _ | table <;> rw [hr] at h <;> simp only [] at h
  · cases h
    exact hwf
  rcases hs : sanitize_name cn with _ | sc <;> rw [hs] at h <;> simp only [] at h
  · exact absurd h (by simp)
  by_cases hc : (get_columns m table).contains sc
  · rw [if_pos hc] at h
    cases h
    exact hwf
  · rw [if_neg hc] at h
    exact absurd h (by simp)

theorem wf_delete_column {m m' : Manager} {cn : String} {sp : Option String}
    {res : Outcome Unit} (hwf : Wf m) (h : delete_column m cn sp = .ok (res, m')) : Wf m' := by
  unfold delete_column at h
  rcases hr : resolveTarget m sp with _ | table <;> rw [hr] at h <;> simp only [] at h
  · cases h
    exact hwf
  rcases hs : sanitize_name cn with _ | sc <;> rw [hs] at h <;> simp only [] at h
  · exact absurd h (by simp)
  by_cases hc : !(get_columns m table).contains sc
  · rw [if_pos hc] at h
    cases h
    exact hwf
  rw [if_neg hc] at h
  by_cases hemp : ((get_columns m table).erase sc).isEmpty
  · rw [if_pos hemp] at h
    exact absurd h (by simp)
  rw [if_neg hemp] at h
  by_cases htemp : (alookup ("_temp_" ++ table) m.tables).isSome
  · rw [if_pos htemp] at h
    exact absurd h (by simp)
  rw [if_neg htemp] at h
  by_cases hnd : !nodupB ("id" :: (get_columns m table).erase sc)
  · rw [if_pos hnd] at h
    exact absurd h (by simp)
  rw [if_neg hnd] at h
  rcases ht : alookup table m.tables with _ | t <;> rw [ht] at h <;> simp only [] at h
  · exact absurd h (by simp)
  by_cases hany : ((get_columns m table).erase sc).any (fun c => !t.cols.contains c)
  · rw [if_pos hany] at h
    exact absurd h (by simp)
  rw [if_neg hany] at h
  cases h
  rcases hmeta : alookup table m.meta with _ | cols0
  · rw [wf_tables_none hwf hmeta] at ht
    exact absurd ht (by simp)
  have hidnd : ("id" :: (get_columns m table).erase sc).Nodup := by
    rw [← nodupB_iff]
    rcases hb : nodupB ("id" :: (get_columns m table).erase sc)
    · rw [hb] at hnd
      exact absurd rfl hnd
    · rfl
  rcases wf_lookup hwf hmeta with ⟨t1, ht1, hc1, hwt1⟩
  rw [ht] at ht1
  cases ht1
  have hwt' : WfTable ⟨(get_columns m table).erase sc,
      t.rows.map (fun r =>
        ⟨r.id, ((get_columns m table).erase sc).filterMap
          (fun c => (alookup c r.cells).map (fun v => (c, v)))⟩),
      maxRowId t.rows⟩ := by
    obtain ⟨hne, hnd1, hid1, hpw, hseq⟩ := hwt1
    refine ⟨?_, (List.nodup_cons.mp hidnd).2, ?_, ?_, ?_⟩
    · intro hcontra
      rw [List.isEmpty_iff] at hemp
      exact hemp hcontra
    · exact fun hmem => (List.nodup_cons.mp hidnd).1 hmem
    · refine List.Pairwise.map _ ?_ hpw
      intro a b hab
      exact hab
    · intro r hr'
      rcases List.mem_map.mp hr' with ⟨r0, hr0, rfl⟩
      show r0.id ≤ maxRowId t.rows
      exact le_maxRowId hr0
  exact wf_assocUpdate_both hwf hmeta ht hwt'

theorem wf_get_data {m m' : Manager} {sp : Option String} {res : Outcome GetData}
    (hwf : Wf m) (h : get_data m sp = .ok (res, m')) : Wf m' := by
  unfold get_data at h
  rcases hr : resolveTarget m sp with _ | table <;> rw [hr] at h <;> simp only [] at h
  · cases h
    exact hwf
  rcases ht : alookup table m.tables with _ | t <;> rw [ht] at h <;> simp only [] at h
  · exact absurd h (by simp)
  cases h
  exact hwf

theorem wf_switch {m m' : Manager} {name : String} {res : Outcome String}
    (hwf : Wf m) (h : switch_spreadsheet m name = .ok (res, m')) : Wf m' := by
  unfold switch_spreadsheet at h
  rcases hs : sanitize_name name with _ | table <;> rw [hs] at h <;> simp only [] at h
  · exact absurd h (by simp)
  split at h <;> cases h
  · exact hwf
  · exact ⟨hwf.1, hwf.2.1, hwf.2.2⟩

theorem wf_export_csv {m m' : Manager} {sp : Option String} {res : Outcome String}
    (hwf : Wf m) (h : export_csv m sp = .ok (res, m')) : Wf m' := by
  unfold export_csv at h
  rcases hr : resolveTarget m sp with _ | table <;> rw [hr] at h <;> simp only [] at h
  · cases h
    exact hwf
  rcases hg : get_data m (some table) with e | ⟨d, mg⟩
  · rw [hg] at h
    exact absurd h (by simp)
  · rw [hg] at h
    rcases d with d | e
    · simp only [] at h
      split at h
      · exact absurd h (by simp)
      · cases h
        exact wf_get_data hwf hg
    · simp only [] at h
      cases h
      exact wf_get_data hwf hg

theorem wf_delete_spreadsheet {m m' : Manager} {name : String} {res : Outcome Unit}
    (hwf : Wf m) (h : delete_spreadsheet m name = .ok (res, m')) : Wf m' := by
  unfold delete_spreadsheet at h
  rcases hs : sanitize_name name with _ | table <;> rw [hs] at h <;> simp only [] at h
  · exact absurd h (by simp)
  split at h <;> cases h
  · exact hwf
  · refine ⟨?_, ?_, ?_⟩
    · simp only
      rw [map_fst_eraseKey, map_fst_eraseKey, hwf.1]
    · simp only
      rw [map_fst_eraseKey]
      exact List.Nodup.filter _ hwf.2.1
    · intro p hp
      simp only at hp
      rcases mem_eraseKey.mp hp with ⟨hmem, hne⟩
      simp only
      rw [alookup_eraseKey_ne _ hne]
      exact hwf.2.2 p hmem

/-- Every storage call preserves well-formedness. -/
theorem wf_applyOp {m : Manager} (hwf : Wf m) (op : Op) : Wf (applyOp m op) := by
  cases op with
  | create name columns =>
    rcases h : create_spreadsheet m name columns with e | ⟨res, m'⟩ <;> simp only [applyOp, h]
    · exact hwf
    · exact wf_create hwf h
  | addRow data sp =>
    rcases h : add_row m data sp with e | ⟨res, m'⟩ <;> simp only [applyOp, h]
    · exact hwf
    · exact wf_add_row hwf h
  | addColumn c d sp =>
    rcases h : add_column m c d sp with e | ⟨res, m'⟩ <;> simp only [applyOp, h]
    · exact hwf
    · exact wf_add_column hwf h
  | editCell i c v sp =>
    rcases h : edit_cell m i c v sp with e | ⟨res, m'⟩ <;> simp only [applyOp, h]
    · exact hwf
    · exact wf_edit_cell hwf h
  | deleteRow i sp =>
    rcases h : delete_row m i sp with e | ⟨res, m'⟩ <;> simp only [applyOp, h]
    · exact hwf
    · exact wf_delete_row hwf h
  | deleteColumn c sp =>
    rcases h : delete_column m c sp with e | ⟨res, m'⟩ <;> simp only [applyOp, h]
    · exact hwf
    · exact wf_delete_column hwf h
  | getData sp =>
    rcases h : get_data m sp with e | ⟨res, m'⟩ <;> simp only [applyOp, h]
    · exact hwf
    · exact wf_get_data hwf h
  | switchSheet name =>
    rcases h : switch_spreadsheet m name with e | ⟨res, m'⟩ <;> simp only [applyOp, h]
    · exact hwf
    · exact wf_switch hwf h
  | exportCsv sp =>
    rcases h : export_csv m sp with e | ⟨res, m'⟩ <;> simp only [applyOp, h]
    · exact hwf
    · exact wf_export_csv hwf h
  | deleteSheet name =>
    rcases h : delete_spreadsheet m name with e | ⟨res, m'⟩ <;> simp only [applyOp, h]
    · exact hwf
    · exact wf_delete_spreadsheet hwf h

/-- Well-formedness holds at every observation point of every call
sequence. -/
theorem wf_run {m : Manager} (hwf : Wf m) (ops : List Op) : Wf (run m ops) := by
  induction ops generalizing m with
  | nil => exact hwf
  | cons op rest ih => exact ih (wf_applyOp hwf op)

/-- Every state reachable from a fresh database is well-formed. -/
theorem wf_run_init (ops : List Op) : Wf (run init ops) :=
  wf_run wf_init ops

/-! ## The CSV round trip -/

theorem string_mk_data (s : String) : String.mk s.data = s := rfl

theorem csvScan_plain (cs : List Char)
    (h : ∀ c ∈ cs, ¬(c = ',' ∨ c = '"' ∨ c = '\r' ∨ c = '\n'))
    (rest : List Char) (started : Bool) (cur : List Char) (fields : List String)
    (recs : List (List String)) :
    csvScan (cs ++ rest) false started cur fields recs =
      csvScan rest false (started || !cs.isEmpty) (cs.reverse ++ cur) fields recs := by
  induction cs generalizing started cur with
  | nil => simp
  | cons c cs' ih =>
    have hc := h c (List.mem_cons_self c cs')
    push_neg at hc
    rw [List.cons_append, csvScan]
    rw [if_neg (by simp), if_neg (by simp [hc.1]), if_neg (by simp [hc.2.2.1, hc.2.2.2]),
      if_neg (by simp [hc.2.1])]
    rw [ih (fun d hd => h d (List.mem_cons_of_mem c hd)) true (c :: cur)]
    simp [List.append_assoc]

theorem csvScan_quoted (cs : List Char) (rest : List Char) (h : rest.head? ≠ some '"')
    (started : Bool) (cur : List Char) (fields : List String) (recs : List (List String)) :
    csvScan (escapeQuotes cs ++ '"' :: rest) true started cur fields recs =
      csvScan rest false true (cs.reverse ++ cur) fields recs := by
  induction cs generalizing started cur with
  | nil =>
    rw [escapeQuotes, List.nil_append, csvScan]
    rw [if_pos rfl, if_pos rfl, if_neg h]
    simp
  | cons c cs' ih =>
    rw [escapeQuotes]
    by_cases hc : c = '"'
    · subst hc
      rw [if_pos rfl, List.cons_append, List.cons_append, csvScan]
      rw [if_pos rfl, if_pos rfl, if_pos (by simp), List.tail_cons]
      rw [ih true ('"' :: cur)]
      simp [List.append_assoc]
    · rw [if_neg hc, List.cons_append, csvScan]
      rw [if_pos rfl, if_neg hc]
      rw [ih true (c :: cur)]
      simp [List.append_assoc]

theorem csvScan_field (s : String) (rest : List Char) (hrest : rest.head? ≠ some '"')
    (fields : List String) (recs : List (List String)) :
    csvScan (renderField s ++ rest) false false [] fields recs =
      csvScan rest false (needsQuote s || !s.data.isEmpty) s.data.reverse fields recs := by
  unfold renderField
  by_cases hq : needsQuote s
  · rw [if_pos hq, List.cons_append, csvScan]
    rw [if_neg (by simp), if_neg (by simp), if_neg (by simp), if_pos rfl, if_pos (by simp)]
    rw [List.append_assoc, List.cons_append, List.nil_append]
    rw [csvScan_quoted s.data rest hrest true []]
    simp [hq]
  · rw [if_neg hq]
    have hnospec : ∀ c ∈ s.data, ¬(c = ',' ∨ c = '"' ∨ c = '\r' ∨ c = '\n') := by
      intro c hc hor
      unfold needsQuote at hq
      rw [Bool.not_eq_true, List.any_eq_false] at hq
      have := hq c hc
      rcases hor with rfl | rfl | rfl | rfl <;> simp at this
    rw [csvScan_plain s.data hnospec rest false []]
    simp [hq]

theorem csvScan_fields_aux (fsTail : List String) (f : String) (fields : List String)
    (hcond : fields = [] → f = "" → fsTail = [] → False) (rest : List Char)
    (recs : List (List String)) :
    csvScan (joinFields ((f :: fsTail).map renderField) ++ ('\r' :: '\n' :: rest))
        false false [] fields recs =
      csvScan rest false false [] [] (recs ++ [fields ++ f :: fsTail]) := by
  induction fsTail generalizing f fields with
  | nil =>
    rw [List.map_cons, List.map_nil, joinFields]
    rw [csvScan_field f ('\r' :: '\n' :: rest) (by simp) fields recs]
    rw [csvScan]
    rw [if_neg (by simp), if_neg (by simp), if_pos (by simp), if_pos (by simp), List.tail_cons]
    have hnb : ¬(fields.isEmpty && !(needsQuote f || !f.data.isEmpty)) = true := by
      intro hb
      simp only [Bool.and_eq_true, Bool.not_eq_true', Bool.or_eq_false_iff] at hb
      rcases hb with ⟨hfe, _, hde⟩
      have hfe' : fields = [] := List.isEmpty_iff.mp hfe
      have hde' : f.data = [] := by
        rcases hv : f.data.isEmpty
        · rw [hv] at hde
          simp at hde
        · exact List.isEmpty_iff.mp hv
      refine hcond hfe' ?_ rfl
      have hf : f = String.mk f.data := rfl
      rw [hf, hde']
    rw [if_neg hnb]
    rw [List.reverse_reverse, string_mk_data]
  | cons f' fsTail' ih =>
    have hjoin : joinFields ((f :: f' :: fsTail').map renderField) =
        renderField f ++ ',' :: joinFields ((f' :: fsTail').map renderField) := rfl
    rw [hjoin, List.append_assoc, List.cons_append]
    rw [csvScan_field f (',' :: (joinFields ((f' :: fsTail').map renderField) ++
      '\r' :: '\n' :: rest)) (by simp) fields recs]
    rw [csvScan]
    rw [if_neg (by simp), if_pos rfl]
    rw [List.reverse_reverse, string_mk_data]
    rw [ih f' (fields ++ [f]) (by simp)]
    rw [List.append_assoc, List.singleton_append]

theorem csvScan_record (fs : List String) (h : fs ≠ [""]) (rest : List Char)
    (recs : List (List String)) :
    csvScan (renderRecord fs ++ rest) false false [] [] recs =
      csvScan rest false false [] [] (recs ++ [fs]) := by
  cases fs with
  | nil =>
    rw [renderRecord, List.map_nil, joinFields, List.nil_append]
    rw [List.cons_append, List.cons_append, List.nil_append, csvScan]
    rw [if_neg (by simp), if_neg (by simp), if_pos (by simp), if_pos (by simp), List.tail_cons]
    rw [if_pos (by simp)]
  | cons f fsTail =>
    rw [renderRecord, List.append_assoc, List.cons_append, List.cons_append, List.nil_append]
    rw [csvScan_fields_aux fsTail f [] ?hc rest recs]
    · rw [List.nil_append]
    case hc =>
      intro _ hf htail
      exact h (by rw [hf, htail])

theorem parseCsv_renderCsv_aux (records : List (List String))
    (h : ∀ rec ∈ records, rec ≠ [""]) (recs : List (List String)) :
    csvScan (renderCsv records) false false [] [] recs = recs ++ records := by
  induction records generalizing recs with
  | nil =>
    rw [renderCsv, List.map_nil, List.flatten_nil, csvScan]
    rw [if_neg (by simp), if_pos (by simp)]
    simp
  | cons r rs ih =>
    rw [renderCsv, List.map_cons, List.flatten_cons]
    rw [csvScan_record r (h r (List.mem_cons_self r rs)) _ recs]
    rw [show (List.map renderRecord rs).flatten = renderCsv rs from rfl]
    rw [ih (fun rec hrec => h rec (List.mem_cons_of_mem r hrec))]
    rw [List.append_assoc, List.singleton_append]

/-- Re-reading a rendered CSV file recovers exactly the written records,
provided no record is the single empty field (whose line is blank and is read
back as the empty record). -/
theorem parseCsv_renderCsv (records : List (List String))
    (h : ∀ rec ∈ records, rec ≠ [""]) :
    parseCsv (renderCsv records) = records := by
  unfold parseCsv
  rw [parseCsv_renderCsv_aux records h []]
  rfl

/-! ## Claim theorems -/

/-- A small well-formed database used by concrete counterexamples and
witnesses: one spreadsheet `t` with the single column `a` and one row. -/
def sampleState : Manager :=
  ⟨[("t", ["a"])], [("t", ⟨["a"], [⟨1, [("a", "v")]⟩], 1⟩)], some "t"⟩

/-- C9 counterexample: the claim quantifies over every input string, but the
sanitizer raises `IndexError` on `""`, and its output on `" a"` differs from
the claim's strip-free recipe. -/
theorem C9_sanitizer_counterexample :
    sanitize_name "" = none ∧
    sanitize_name " a" = some "a" ∧
    sanitizeClaimRecipe " a" = "_a" ∧
    ("a" : String) ≠ "_a" :=
  ⟨rfl, rfl, rfl, by decide⟩

/-- C9 (amended): on every input on which the sanitizer returns (that is,
every input that is not empty or whitespace-only, where it raises
`IndexError`), the output is obtained by lowercasing, stripping surrounding
whitespace, replacing every character outside `[a-z0-9_]` with `_` and
prefixing `_` when the result starts with a digit; that output is a fixed
point of the sanitizer (idempotence), is nonempty, contains only `[a-z0-9_]`
characters, and never starts with a digit. -/
theorem C9_sanitizer_amended (s y : String) (h : sanitize_name s = some y) :
    sanitize_name y = some y ∧
    y.data ≠ [] ∧
    (∀ c ∈ y.data, outChar c = true) ∧
    (∀ c cs, y.data = c :: cs → c.isDigit = false) := by
  unfold sanitize_name at h
  rcases hsc : sanitizeChars s.data with _ | yl <;> rw [hsc] at h
  · exact absurd h (by simp)
  simp only [Option.map_some'] at h
  cases h
  refine ⟨?_, ?_, sanitize_output_outChar hsc, sanitize_head_not_digit hsc⟩
  · show (sanitizeChars yl).map String.mk = some (String.mk yl)
    rw [sanitizeChars_idem hsc]
    rfl
  · show yl ≠ []
    rcases sanitizeChars_some hsc with ⟨c, cs, _, rfl⟩
    split <;> simp

/-- Witness for C9 at the concrete input `"9 Lives!"`. -/
theorem C9_sanitizer_amended_witness :
    sanitize_name "_9_lives_" = some "_9_lives_" ∧
    ("_9_lives_" : String).data ≠ [] ∧
    (∀ c ∈ ("_9_lives_" : String).data, outChar c = true) ∧
    (∀ c cs, ("_9_lives_" : String).data = c :: cs → c.isDigit = false) :=
  C9_sanitizer_amended "9 Lives!" "_9_lives_" rfl

/-- C2: the storage layer is claimed never to terminate with an unhandled
exception, but `_sanitize_name` raises `IndexError` on an empty or
whitespace-only name, `add_column` raises `sqlite3.OperationalError` on its
success path (bound parameter in DDL), and `delete_column` on a table's last
remaining column raises `sqlite3.OperationalError` (malformed `CREATE`). -/
theorem C2_storage_ops_raise :
    create_spreadsheet init "   " ["a"] = Except.error indexErr ∧
    create_spreadsheet init "" ["a"] = Except.error indexErr ∧
    Wf sampleState ∧
    add_column sampleState "b" "x" none = Except.error ddlParamErr ∧
    delete_column sampleState "a" none = Except.error sqlSyntaxErr :=
  ⟨rfl, rfl, by decide, rfl, rfl⟩

/-- C3: once the duplicate check passes, `add_column` always raises
`sqlite3.OperationalError`, because `ALTER TABLE ... ADD COLUMN ... TEXT
DEFAULT ?` carries a bound parameter, which SQLite rejects in DDL; the column
is never added and the default value is never applied. -/
theorem C3_add_column_ddl_raises (m : Manager) (cn dv : String) (sp : Option String)
    (table sc : String) (hr : resolveTarget m sp = some table)
    (hs : sanitize_name cn = some sc)
    (hnc : (get_columns m table).contains sc = false) :
    add_column m cn dv sp = Except.error ddlParamErr := by
  unfold add_column
  rw [hr]
  simp only []
  rw [hs]
  simp only []
  rw [if_neg (by rw [hnc]; simp)]

/-- Witness for C3: adding a fresh column `b` to the sample spreadsheet
raises instead of succeeding. -/
theorem C3_add_column_ddl_raises_witness :
    add_column sampleState "b" "x" none = Except.error ddlParamErr :=
  C3_add_column_ddl_raises sampleState "b" "x" none "t" "b" rfl rfl rfl

/-- C4 counterexample: the second create for a colliding name fails, but its
message quotes the original user-supplied name (`MY SHEET`), not the
canonical sanitized form (`my_sheet`) that the claim says it names. -/
theorem C4_duplicate_message_counterexample :
    create_spreadsheet init "My Sheet" ["a"] =
      Except.ok (Outcome.ok ("my_sheet", ["a"]),
        ⟨[("my_sheet", ["a"])], [("my_sheet", ⟨["a"], [], 0⟩)], some "my_sheet"⟩) ∧
    sanitize_name "MY SHEET" = some "my_sheet" ∧
    create_spreadsheet
        ⟨[("my_sheet", ["a"])], [("my_sheet", ⟨["a"], [], 0⟩)], some "my_sheet"⟩
        "MY SHEET" ["b"] =
      Except.ok (Outcome.err "Spreadsheet 'MY SHEET' already exists",
        ⟨[("my_sheet", ["a"])], [("my_sheet", ⟨["a"], [], 0⟩)], some "my_sheet"⟩) ∧
    ¬ ("my_sheet".data <:+: "Spreadsheet 'MY SHEET' already exists".data) ∧
    ("MY SHEET".data <:+: "Spreadsheet 'MY SHEET' already exists".data) :=
  ⟨rfl, rfl, rfl, by decide, by decide⟩

/-- C4 (amended): a create whose sanitized name is already registered —
including a distinct original that collides only after sanitization — fails
with an "already exists" error, and the message quotes the original
user-supplied name (the comparison, not the message, uses the canonical
form). -/
theorem C4_duplicate_message_amended (m : Manager) (name : String) (columns : List String)
    (tn : String) (hs : sanitize_name name = some tn)
    (hex : (alookup tn m.meta).isSome = true) :
    create_spreadsheet m name columns =
      Except.ok (Outcome.err ("Spreadsheet '" ++ name ++ "' already exists"), m) := by
  unfold create_spreadsheet
  rw [hs]
  simp only []
  rw [if_pos hex]

/-- Witness for C4 at the colliding pair `"My Sheet"` / `"MY SHEET"`. -/
theorem C4_duplicate_message_amended_witness :
    create_spreadsheet
        ⟨[("my_sheet", ["a"])], [("my_sheet", ⟨["a"], [], 0⟩)], some "my_sheet"⟩
        "MY SHEET" ["b"] =
      Except.ok (Outcome.err ("Spreadsheet '" ++ "MY SHEET" ++ "' already exists"),
        ⟨[("my_sheet", ["a"])], [("my_sheet", ⟨["a"], [], 0⟩)], some "my_sheet"⟩) :=
  C4_duplicate_message_amended _ "MY SHEET" ["b"] "my_sheet" rfl rfl

/-- C5: on a non-empty row set the plot tool classifies a column numeric iff
some row holds a truthy (non-`None`, non-empty) value that parses as a float
after removing `,` and `$`, and the auto-selection cascade yields scatter for
at least two numeric columns, bar for exactly one numeric plus at least one
categorical, histogram for exactly one numeric and no categorical, and bar
(frequency count) for categorical-only tables. -/
theorem C5_plot_classification_and_selection (rows : List RowOut) (columns : List String)
    (hrows : rows ≠ []) :
    (∀ col, is_numeric_column rows col = true ↔
      ∃ r ∈ rows, pyTruthy (rowGet r col) = true ∧
        parsesAsFloat ((rowGet r col).getD "") = true) ∧
    ((numericCols rows columns).length ≥ 2 → autoPlotType rows columns = "scatter") ∧
    ((numericCols rows columns).length = 1 → categoricalCols rows columns ≠ [] →
      autoPlotType rows columns = "bar") ∧
    ((numericCols rows columns).length = 1 → categoricalCols rows columns = [] →
      autoPlotType rows columns = "histogram") ∧
    ((numericCols rows columns).length = 0 → categoricalCols rows columns ≠ [] →
      autoPlotType rows columns = "bar") := by
  have _ := hrows
  refine ⟨?_, ?_, ?_, ?_, ?_⟩
  · intro col
    unfold is_numeric_column
    rw [List.any_eq_true]
    constructor
    · rintro ⟨r, hr, hb⟩
      rw [Bool.and_eq_true] at hb
      exact ⟨r, hr, hb.1, hb.2⟩
    · rintro ⟨r, hr, h1, h2⟩
      exact ⟨r, hr, by rw [Bool.and_eq_true]; exact ⟨h1, h2⟩⟩
  · intro hge
    unfold autoPlotType
    rw [if_pos (by simpa using hge)]
  · intro hone hcat
    unfold autoPlotType
    rw [if_neg (by simp [hone]), if_pos]
    rw [Bool.and_eq_true]
    refine ⟨by simp [hone], ?_⟩
    simp [List.isEmpty_iff, hcat]
  · intro hone hcat
    unfold autoPlotType
    rw [if_neg (by simp [hone]), if_neg, if_pos (by simp [hone])]
    rw [Bool.and_eq_true]
    rintro ⟨_, hne⟩
    rw [Bool.not_eq_true', List.isEmpty_eq_false] at hne
    exact hne hcat
  · intro hzero hcat
    unfold autoPlotType
    have hc1 : ¬((numericCols rows columns).length = 1 &&
        !(categoricalCols rows columns).isEmpty) = true := by
      rw [Bool.and_eq_true]
      rintro ⟨h1, _⟩
      simp [hzero] at h1
    rw [if_neg (by simp [hzero]), if_neg hc1, if_neg (by simp [hzero])]
    split <;> rfl

/-- Witness for C5: a `[category(text), amount(numeric)]` table auto-selects
a bar chart (instantiating the theorem at one concrete table). -/
theorem C5_plot_classification_and_selection_witness :
    ((∀ col, is_numeric_column [⟨1, [("category", some "food"), ("amount", some "$5")]⟩] col = true ↔
      ∃ r ∈ [(⟨1, [("category", some "food"), ("amount", some "$5")]⟩ : RowOut)],
        pyTruthy (rowGet r col) = true ∧
        parsesAsFloat ((rowGet r col).getD "") = true) ∧
    ((numericCols [⟨1, [("category", some "food"), ("amount", some "$5")]⟩]
        ["id", "category", "amount"]).length ≥ 2 →
      autoPlotType [⟨1, [("category", some "food"), ("amount", some "$5")]⟩]
        ["id", "category", "amount"] = "scatter") ∧
    ((numericCols [⟨1, [("category", some "food"), ("amount", some "$5")]⟩]
        ["id", "category", "amount"]).length = 1 →
      categoricalCols [⟨1, [("category", some "food"), ("amount", some "$5")]⟩]
        ["id", "category", "amount"] ≠ [] →
      autoPlotType [⟨1, [("category", some "food"), ("amount", some "$5")]⟩]
        ["id", "category", "amount"] = "bar") ∧
    ((numericCols [⟨1, [("category", some "food"), ("amount", some "$5")]⟩]
        ["id", "category", "amount"]).length = 1 →
      categoricalCols [⟨1, [("category", some "food"), ("amount", some "$5")]⟩]
        ["id", "category", "amount"] = [] →
      autoPlotType [⟨1, [("category", some "food"), ("amount", some "$5")]⟩]
        ["id", "category", "amount"] = "histogram") ∧
    ((numericCols [⟨1, [("category", some "food"), ("amount", some "$5")]⟩]
        ["id", "category", "amount"]).length = 0 →
      categoricalCols [⟨1, [("category", some "food"), ("amount", some "$5")]⟩]
        ["id", "category", "amount"] ≠ [] →
      autoPlotType [⟨1, [("category", some "food"), ("amount", some "$5")]⟩]
        ["id", "category", "amount"] = "bar")) ∧
    autoPlotType [⟨1, [("category", some "food"), ("amount", some "$5")]⟩]
      ["id", "category", "amount"] = "bar" :=
  ⟨C5_plot_classification_and_selection _ _ (by simp), by decide⟩

theorem list_map_id_of {α : Type} {f : α → α} {l : List α} (h : ∀ a ∈ l, f a = a) :
    l.map f = l := by
  induction l with
  | nil => rfl
  | cons a as ih =>
    rw [List.map_cons, h a (List.mem_cons_self a as), ih]
    intro b hb
    exact h b (List.mem_cons_of_mem a hb)

/-- C7: `edit_cell` returns a structured not-found error when the sanitized
column is unknown, and a structured not-found error when no row matches the
given id; in either failure case the manager state is returned unchanged
(same registry, same physical tables — hence same row count and cell
values — same selection). -/
theorem C7_edit_cell_failure_frame (m : Manager) (row_id : Nat) (column value : String)
    (sp : Option String) (table sc : String) (hr : resolveTarget m sp = some table)
    (hs : sanitize_name column = some sc) :
    ((get_columns m table).contains sc = false →
      edit_cell m row_id column value sp =
        Except.ok (Outcome.err ("Column '" ++ column ++ "' not found"), m)) ∧
    (∀ t, alookup table m.tables = some t →
      (get_columns m table).contains sc = true → t.cols.contains sc = true →
      (∀ r ∈ t.rows, r.id ≠ row_id) →
      edit_cell m row_id column value sp =
        Except.ok (Outcome.err ("Row " ++ toString row_id ++ " not found"), m)) := by
  constructor
  · intro hnc
    unfold edit_cell
    rw [hr]
    simp only []
    rw [hs]
    simp only []
    rw [if_pos (by rw [hnc]; rfl)]
  · intro t ht hc1 hc2 hnone
    unfold edit_cell
    rw [hr]
    simp only []
    rw [hs]
    simp only []
    rw [if_neg (by rw [hc1]; simp), ht]
    simp only []
    rw [if_neg (by rw [hc2]; simp)]
    have hrows : t.rows.map (fun r =>
        if r.id = row_id then (⟨r.id, dictSet r.cells sc value⟩ : Row) else r) = t.rows :=
      list_map_id_of (fun r hrr => by rw [if_neg (hnone r hrr)])
    have hany : t.rows.any (fun r => r.id = row_id) = false := by
      rw [List.any_eq_false]
      intro r hrr
      simp [hnone r hrr]
    rw [hrows, if_neg (by rw [hany]; simp)]
    have htab : (⟨t.cols, t.rows, t.seq⟩ : Table) = t := rfl
    rw [htab, assocUpdate_cancel ht]

/-- Witness for C7 on the sample database: editing an unknown column `zz`
and editing the missing row `7` both fail and leave the state unchanged. -/
theorem C7_edit_cell_failure_frame_witness :
    (((get_columns sampleState "t").contains "zz" = false →
      edit_cell sampleState 7 "zz" "w" none =
        Except.ok (Outcome.err ("Column '" ++ "zz" ++ "' not found"), sampleState)) ∧
    (∀ t, alookup "t" sampleState.tables = some t →
      (get_columns sampleState "t").contains "zz" = true → t.cols.contains "zz" = true →
      (∀ r ∈ t.rows, r.id ≠ 7) →
      edit_cell sampleState 7 "zz" "w" none =
        Except.ok (Outcome.err ("Row " ++ toString 7 ++ " not found"), sampleState))) ∧
    (((get_columns sampleState "t").contains "a" = false →
      edit_cell sampleState 7 "a" "w" none =
        Except.ok (Outcome.err ("Column '" ++ "a" ++ "' not found"), sampleState)) ∧
    (∀ t, alookup "t" sampleState.tables = some t →
      (get_columns sampleState "t").contains "a" = true → t.cols.contains "a" = true →
      (∀ r ∈ t.rows, r.id ≠ 7) →
      edit_cell sampleState 7 "a" "w" none =
        Except.ok (Outcome.err ("Row " ++ toString 7 ++ " not found"), sampleState))) ∧
    edit_cell sampleState 7 "zz" "w" none =
      Except.ok (Outcome.err "Column 'zz' not found", sampleState) ∧
    edit_cell sampleState 7 "a" "w" none =
      Except.ok (Outcome.err "Row 7 not found", sampleState) :=
  ⟨C7_edit_cell_failure_frame sampleState 7 "zz" "w" none "t" "zz" rfl rfl,
   C7_edit_cell_failure_frame sampleState 7 "a" "w" none "t" "a" rfl rfl,
   rfl, rfl⟩

/-- C8: `delete_spreadsheet` on an existing sheet drops its physical table
and registry row (leaving every other sheet untouched), clears the current
pointer iff it pointed at that sheet, fails with a structured not-found error
on an unknown sheet, and after the selection is gone every operation invoked
without an explicit target fails with the no-spreadsheet-selected error. -/
theorem C8_delete_spreadsheet_behavior (m : Manager) (name table : String)
    (hs : sanitize_name name = some table) :
    ((alookup table m.meta).isNone = true →
      delete_spreadsheet m name =
        Except.ok (Outcome.err ("Spreadsheet '" ++ name ++ "' not found"), m)) ∧
    ((alookup table m.meta).isNone = false →
      ∃ m', delete_spreadsheet m name = Except.ok (Outcome.ok (), m') ∧
        alookup table m'.meta = none ∧
        alookup table m'.tables = none ∧
        (∀ n, n ≠ table → alookup n m'.meta = alookup n m.meta ∧
          alookup n m'.tables = alookup n m.tables) ∧
        (m.current = some table → m'.current = none) ∧
        (m.current ≠ some table → m'.current = m.current)) ∧
    (∀ (m2 : Manager), m2.current = none →
      ∀ (data : List (String × String)) (cn dv col v : String) (rid : Nat),
        add_row m2 data none = Except.ok (Outcome.err "No spreadsheet selected", m2) ∧
        add_column m2 cn dv none = Except.ok (Outcome.err "No spreadsheet selected", m2) ∧
        edit_cell m2 rid col v none = Except.ok (Outcome.err "No spreadsheet selected", m2) ∧
        delete_row m2 rid none = Except.ok (Outcome.err "No spreadsheet selected", m2) ∧
        delete_column m2 cn none = Except.ok (Outcome.err "No spreadsheet selected", m2) ∧
        get_data m2 none = Except.ok (Outcome.err "No spreadsheet selected", m2) ∧
        export_csv m2 none = Except.ok (Outcome.err "No spreadsheet selected", m2)) := by
  refine ⟨?_, ?_, ?_⟩
  · intro hnone
    unfold delete_spreadsheet
    rw [hs]
    simp only []
    rw [if_pos hnone]
  · intro hsome
    unfold delete_spreadsheet
    rw [hs]
    simp only []
    rw [if_neg (by rw [hsome]; simp)]
    refine ⟨_, rfl, ?_, ?_, ?_, ?_, ?_⟩
    · exact alookup_eraseKey_self table m.meta
    · exact alookup_eraseKey_self table m.tables
    · intro n hn
      exact ⟨alookup_eraseKey_ne m.meta hn, alookup_eraseKey_ne m.tables hn⟩
    · intro hcur
      simp only
      rw [if_pos hcur]
    · intro hcur
      simp only
      rw [if_neg hcur]
  · intro m2 hcur data cn dv col v rid
    have hres : resolveTarget m2 none = none := by
      unfold resolveTarget
      exact hcur
    refine ⟨?_, ?_, ?_, ?_, ?_, ?_, ?_⟩
    · unfold add_row
      rw [hres]
    · unfold add_column
      rw [hres]
    · unfold edit_cell
      rw [hres]
    · unfold delete_row
      rw [hres]
    · unfold delete_column
      rw [hres]
    · unfold get_data
      rw [hres]
    · unfold export_csv
      rw [hres]

/-- Witness for C8 on the sample database: deleting the selected sheet `t`
clears the pointer, and (instantiating the last conjunct) subsequent calls
with no target fail with the no-selection error. -/
theorem C8_delete_spreadsheet_behavior_witness :
    (alookup "t" sampleState.meta).isNone = false ∧
    delete_spreadsheet sampleState "t" = Except.ok (Outcome.ok (), ⟨[], [], none⟩) ∧
    (((alookup "t" sampleState.meta).isNone = true →
      delete_spreadsheet sampleState "t" =
        Except.ok (Outcome.err ("Spreadsheet '" ++ "t" ++ "' not found"), sampleState)) ∧
    ((alookup "t" sampleState.meta).isNone = false →
      ∃ m', delete_spreadsheet sampleState "t" = Except.ok (Outcome.ok (), m') ∧
        alookup "t" m'.meta = none ∧
        alookup "t" m'.tables = none ∧
        (∀ n, n ≠ "t" → alookup n m'.meta = alookup n sampleState.meta ∧
          alookup n m'.tables = alookup n sampleState.tables) ∧
        (sampleState.current = some "t" → m'.current = none) ∧
        (sampleState.current ≠ some "t" → m'.current = sampleState.current)) ∧
    (∀ (m2 : Manager), m2.current = none →
      ∀ (data : List (String × String)) (cn dv col v : String) (rid : Nat),
        add_row m2 data none = Except.ok (Outcome.err "No spreadsheet selected", m2) ∧
        add_column m2 cn dv none = Except.ok (Outcome.err "No spreadsheet selected", m2) ∧
        edit_cell m2 rid col v none = Except.ok (Outcome.err "No spreadsheet selected", m2) ∧
        delete_row m2 rid none = Except.ok (Outcome.err "No spreadsheet selected", m2) ∧
        delete_column m2 cn none = Except.ok (Outcome.err "No spreadsheet selected", m2) ∧
        get_data m2 none = Except.ok (Outcome.err "No spreadsheet selected", m2) ∧
        export_csv m2 none = Except.ok (Outcome.err "No spreadsheet selected", m2))) :=
  ⟨rfl, rfl, C8_delete_spreadsheet_behavior sampleState "t" "t" rfl⟩

/-- The row id of a successful `add_row` result. -/
def newIdOf (r : Except String (Outcome Nat × Manager)) : Option Nat :=
  match r with
  | .ok (.ok n, _) => some n
  | _ => none

/-- C10 counterexample: on `t` with columns `a, b`, the second `add_row` gets
id 2; after `delete_row 2` frees it and a `delete_column "b"` rebuild resets
the `sqlite_sequence` counter to the largest surviving id (1), the next
`add_row` reassigns the freed id 2. -/
theorem C10_id_reuse_counterexample :
    newIdOf (add_row (run init [Op.create "t" ["a", "b"], Op.addRow [("a", "x")] none])
      [("a", "y")] none) = some 2 ∧
    newIdOf (add_row (run init [Op.create "t" ["a", "b"], Op.addRow [("a", "x")] none,
      Op.addRow [("a", "y")] none, Op.deleteRow 2 none, Op.deleteColumn "b" none])
      [("a", "z")] none) = some 2 :=
  ⟨rfl, rfl⟩

/-- C10 (amended): `add_row` assigns `max(sequence, max rowid) + 1`, which is
strictly larger than the sequence and every present id, and advances the
sequence to it; `delete_row` leaves the sequence untouched, so an id freed by
`delete_row` is never reassigned as long as no rebuild intervenes; but a
successful `delete_column` rebuild resets the sequence to the largest
*surviving* id, so ids freed above that point can be reassigned by later
`add_row` calls. -/
theorem C10_rowid_sequence_amended (m : Manager) (table : String) (t : Table)
    (ht : alookup table m.tables = some t) :
    (∀ data rid m', add_row m data (some table) = .ok (.ok rid, m') →
      rid = max t.seq (maxRowId t.rows) + 1 ∧ t.seq < rid ∧ (∀ r ∈ t.rows, r.id < rid) ∧
      ∃ t', alookup table m'.tables = some t' ∧ t'.seq = rid) ∧
    (∀ rid res m', delete_row m rid (some table) = .ok (res, m') →
      ∃ t', alookup table m'.tables = some t' ∧ t'.seq = t.seq) ∧
    (∀ cn m', delete_column m cn (some table) = .ok (.ok (), m') →
      ∃ t', alookup table m'.tables = some t' ∧ t'.seq = maxRowId t.rows) := by
  refine ⟨?_, ?_, ?_⟩
  · intro data rid m' h
    unfold add_row at h
    rw [show resolveTarget m (some table) = some table from rfl] at h
    simp only [] at h
    rcases hb : buildData (get_columns m table) [] data with _ | sd <;> rw [hb] at h <;>
      simp only [] at h
    · exact absurd h (by simp)
    by_cases hemp : sd.isEmpty
    · rw [if_pos hemp] at h
      exact absurd h (by simp)
    rw [if_neg hemp, ht] at h
    simp only [] at h
    by_cases hany : sd.any (fun kv => !t.cols.contains kv.1)
    · rw [if_pos hany] at h
      exact absurd h (by simp)
    rw [if_neg hany] at h
    cases h
    refine ⟨rfl, by omega, ?_, ?_⟩
    · intro r hr
      have := le_maxRowId hr
      omega
    · have hl : alookup table
          (assocUpdate m.tables table
            ⟨t.cols, t.rows ++ [⟨max t.seq (maxRowId t.rows) + 1, sd⟩],
             max t.seq (maxRowId t.rows) + 1⟩) =
          some ⟨t.cols, t.rows ++ [⟨max t.seq (maxRowId t.rows) + 1, sd⟩],
             max t.seq (maxRowId t.rows) + 1⟩ := by
        rw [alookup_assocUpdate_self, ht]
        rfl
      exact ⟨_, hl, rfl⟩
  · intro rid res m' h
    unfold delete_row at h
    rw [show resolveTarget m (some table) = some table from rfl] at h
    simp only [] at h
    rw [ht] at h
    simp only [] at h
    have hl : alookup table
        (assocUpdate m.tables table
          ⟨t.cols, t.rows.filter (fun r => r.id != rid), t.seq⟩) =
        some ⟨t.cols, t.rows.filter (fun r => r.id != rid), t.seq⟩ := by
      rw [alookup_assocUpdate_self, ht]
      rfl
    split at h <;> cases h <;> exact ⟨_, hl, rfl⟩
  · intro cn m' h
    unfold delete_column at h
    rw [show resolveTarget m (some table) = some table from rfl] at h
    simp only [] at h
    rcases hs : sanitize_name cn with _ | sc <;> rw [hs] at h <;> simp only [] at h
    · exact absurd h (by simp)
    by_cases hc : !(get_columns m table).contains sc
    · rw [if_pos hc] at h
      exact absurd h (by simp)
    rw [if_neg hc] at h
    by_cases hemp : ((get_columns m table).erase sc).isEmpty
    · rw [if_pos hemp] at h
      exact absurd h (by simp)
    rw [if_neg hemp] at h
    by_cases htemp : (alookup ("_temp_" ++ table) m.tables).isSome
    · rw [if_pos htemp] at h
      exact absurd h (by simp)
    rw [if_neg htemp] at h
    by_cases hnd : !nodupB ("id" :: (get_columns m table).erase sc)
    · rw [if_pos hnd] at h
      exact absurd h (by simp)
    rw [if_neg hnd, ht] at h
    simp only [] at h
    by_cases hany : ((get_columns m table).erase sc).any (fun c => !t.cols.contains c)
    · rw [if_pos hany] at h
      exact absurd h (by simp)
    rw [if_neg hany] at h
    cases h
    have hl : alookup table
        (assocUpdate m.tables table
          ⟨(get_columns m table).erase sc,
           t.rows.map (fun r =>
             ⟨r.id, ((get_columns m table).erase sc).filterMap
               (fun c => (alookup c r.cells).map (fun v => (c, v)))⟩),
           maxRowId t.rows⟩) =
        some ⟨(get_columns m table).erase sc,
           t.rows.map (fun r =>
             ⟨r.id, ((get_columns m table).erase sc).filterMap
               (fun c => (alookup c r.cells).map (fun v => (c, v)))⟩),
           maxRowId t.rows⟩ := by
      rw [alookup_assocUpdate_self, ht]
      rfl
    exact ⟨_, hl, rfl⟩

/-- Witness for C10 on the sample database. -/
theorem C10_rowid_sequence_amended_witness :
    ((∀ data rid m', add_row sampleState data (some "t") = .ok (.ok rid, m') →
      rid = max 1 (maxRowId [⟨1, [("a", "v")]⟩]) + 1 ∧ 1 < rid ∧
      (∀ r ∈ [(⟨1, [("a", "v")]⟩ : Row)], r.id < rid) ∧
      ∃ t', alookup "t" m'.tables = some t' ∧ t'.seq = rid) ∧
    (∀ rid res m', delete_row sampleState rid (some "t") = .ok (res, m') →
      ∃ t', alookup "t" m'.tables = some t' ∧ t'.seq = 1) ∧
    (∀ cn m', delete_column sampleState cn (some "t") = .ok (.ok (), m') →
      ∃ t', alookup "t" m'.tables = some t' ∧
        t'.seq = maxRowId [⟨1, [("a", "v")]⟩])) ∧
    newIdOf (add_row sampleState [("a", "w")] (some "t")) = some 2 :=
  ⟨C10_rowid_sequence_amended sampleState "t" ⟨["a"], [⟨1, [("a", "v")]⟩], 1⟩ rfl, rfl⟩

theorem forall₂_map_self {α β : Type} (f : α → β) (R : α → β → Prop) (l : List α)
    (h : ∀ a ∈ l, R a (f a)) : List.Forall₂ R l (l.map f) := by
  induction l with
  | nil => exact List.Forall₂.nil
  | cons a as ih =>
    rw [List.map_cons]
    exact List.Forall₂.cons (h a (List.mem_cons_self a as))
      (ih (fun b hb => h b (List.mem_cons_of_mem a hb)))

/-- A well-formed database with two columns, for the C1 witness. -/
def sampleState2 : Manager :=
  ⟨[("t", ["a", "b"])],
   [("t", ⟨["a", "b"], [⟨1, [("a", "1"), ("b", "2")]⟩], 1⟩)],
   some "t"⟩

/-- C1 counterexample: deleting the only remaining column of a well-formed
spreadsheet does not succeed — the rebuild's `CREATE TABLE` has an empty
column list (trailing comma) and raises `sqlite3.OperationalError`. -/
theorem C1_delete_last_column_raises :
    Wf sampleState ∧
    (get_columns sampleState "t").contains "a" = true ∧
    delete_column sampleState "a" none = Except.error sqlSyntaxErr :=
  ⟨by decide, rfl, rfl⟩

/-- C1 (amended): well-formedness — registry column list equal, in order, to
the physical non-id column set — holds at every observation point of every
operation sequence; `delete_column` on an absent column fails with a
structured not-found error and no state change; and `delete_column` on a
present column succeeds **provided at least one other column remains and no
table occupies the shadow name `_temp_<table>`** (otherwise the SQL raises),
rebuilding the table to exactly the remaining registry columns while
preserving every row's id and its values in all remaining columns. -/
theorem C1_delete_column_amended :
    (∀ ops, Wf (run init ops)) ∧
    (∀ (m : Manager) (cn : String) (sp : Option String) (table sc : String),
      Wf m → resolveTarget m sp = some table → sanitize_name cn = some sc →
      ((get_columns m table).contains sc = false →
        delete_column m cn sp =
          Except.ok (Outcome.err ("Column '" ++ cn ++ "' not found"), m)) ∧
      (∀ cols t, alookup table m.meta = some cols → alookup table m.tables = some t →
        sc ∈ cols → cols.erase sc ≠ [] →
        alookup ("_temp_" ++ table) m.tables = none →
        ∃ m', delete_column m cn sp = Except.ok (Outcome.ok (), m') ∧
          Wf m' ∧
          alookup table m'.meta = some (cols.erase sc) ∧
          ∃ t', alookup table m'.tables = some t' ∧
            t'.cols = cols.erase sc ∧
            List.Forall₂ (fun r r' => r'.id = r.id ∧
                ∀ c ∈ cols.erase sc, alookup c r'.cells = alookup c r.cells)
              t.rows t'.rows)) := by
  refine ⟨wf_run_init, ?_⟩
  intro m cn sp table sc hwf hr hs
  constructor
  · intro hnc
    unfold delete_column
    rw [hr]
    simp only []
    rw [hs]
    simp only []
    rw [if_pos (by rw [hnc]; rfl)]
  · intro cols t hmeta ht hmem hne htemp
    have hgc : get_columns m table = cols := by
      unfold get_columns
      rw [hmeta]
      rfl
    rcases wf_lookup hwf hmeta with ⟨t1, ht1, hc1, hwt1⟩
    rw [ht] at ht1
    cases ht1
    obtain ⟨hcne, hcnd, hcid, hpw, hseq⟩ := hwt1
    have hcnd' : cols.Nodup := hc1 ▸ hcnd
    have hcid' : "id" ∉ cols := hc1 ▸ hcid
    have hcotn : (get_columns m table).contains sc = true := by
      rw [hgc]
      exact List.elem_iff.mpr hmem
    have hnodup' : ("id" :: cols.erase sc).Nodup := by
      rw [List.nodup_cons]
      exact ⟨fun hcontra => hcid' (List.mem_of_mem_erase hcontra), hcnd'.erase sc⟩
    have hempf : (cols.erase sc).isEmpty = false := List.isEmpty_eq_false.mpr hne
    have hndb : nodupB ("id" :: cols.erase sc) = true := nodupB_iff.mpr hnodup'
    have hanyf : (cols.erase sc).any (fun c => !t.cols.contains c) = false := by
      rw [List.any_eq_false]
      intro c hc
      have hcm : c ∈ t.cols := hc1 ▸ List.mem_of_mem_erase hc
      rw [show t.cols.contains c = true from List.elem_iff.mpr hcm]
      simp
    have heq : delete_column m cn sp = Except.ok (Outcome.ok (),
        ⟨assocUpdate m.meta table (cols.erase sc),
         assocUpdate m.tables table
           ⟨cols.erase sc,
            t.rows.map (fun r =>
              ⟨r.id, (cols.erase sc).filterMap
                (fun c => (alookup c r.cells).map (fun v => (c, v)))⟩),
            maxRowId t.rows⟩,
         m.current⟩) := by
      unfold delete_column
      rw [hr]
      simp only []
      rw [hs]
      simp only []
      rw [if_neg (by rw [hcotn]; simp), hgc]
      rw [if_neg (by rw [hempf]; simp)]
      rw [if_neg (by rw [htemp]; simp)]
      rw [if_neg (by rw [hndb]; simp)]
      rw [ht]
      simp only []
      rw [if_neg (by rw [hanyf]; simp)]
    refine ⟨_, heq, wf_delete_column hwf heq, ?_, ?_⟩
    · simp only
      rw [alookup_assocUpdate_self, hmeta]
      rfl
    · have hl : alookup table (assocUpdate m.tables table
          ⟨cols.erase sc,
           t.rows.map (fun r =>
             ⟨r.id, (cols.erase sc).filterMap
               (fun c => (alookup c r.cells).map (fun v => (c, v)))⟩),
           maxRowId t.rows⟩) = some
          ⟨cols.erase sc,
           t.rows.map (fun r =>
             ⟨r.id, (cols.erase sc).filterMap
               (fun c => (alookup c r.cells).map (fun v => (c, v)))⟩),
           maxRowId t.rows⟩ := by
        rw [alookup_assocUpdate_self, ht]
        rfl
      refine ⟨_, hl, rfl, ?_⟩
      refine forall₂_map_self _ _ _ ?_
      intro r hrr
      refine ⟨rfl, ?_⟩
      intro c hc
      exact alookup_filterMap_restrict c r.cells hc (hcnd'.erase sc)

/-- Witness for C1 on a two-column spreadsheet: deleting `b` succeeds,
keeps the row id and the `a` value, and leaves registry and physical schema
equal; the instantiation hypotheses are discharged concretely. -/
theorem C1_delete_column_amended_witness :
    (∃ m', delete_column sampleState2 "b" none = Except.ok (Outcome.ok (), m') ∧
      Wf m' ∧
      alookup "t" m'.meta = some (["a", "b"].erase "b") ∧
      ∃ t', alookup "t" m'.tables = some t' ∧
        t'.cols = ["a", "b"].erase "b" ∧
        List.Forall₂ (fun r r' => r'.id = r.id ∧
            ∀ c ∈ ["a", "b"].erase "b", alookup c r'.cells = alookup c r.cells)
          [(⟨1, [("a", "1"), ("b", "2")]⟩ : Row)] t'.rows) ∧
    delete_column sampleState2 "b" none = Except.ok (Outcome.ok (),
      ⟨[("t", ["a"])], [("t", ⟨["a"], [⟨1, [("a", "1")]⟩], 1⟩)], some "t"⟩) :=
  ⟨(C1_delete_column_amended.2 sampleState2 "b" none "t" "b" (by decide) rfl rfl).2
      ["a", "b"] ⟨["a", "b"], [⟨1, [("a", "1"), ("b", "2")]⟩], 1⟩
      rfl rfl (by decide) (by decide) rfl,
   rfl⟩

theorem rowRecord_rowToOut (cols : List String) (hnid : "id" ∉ cols) (r : Row) :
    rowRecord ("id" :: cols) (rowToOut cols r) =
      toString r.id :: cols.map (fun c => (alookup c r.cells).getD "") := by
  unfold rowRecord
  rw [List.map_cons, if_pos rfl]
  refine congrArg₂ _ rfl ?_
  refine List.map_eq_map_iff.mpr ?_
  intro c hc
  rw [if_neg (by intro heq; rw [heq] at hc; exact hnid hc)]
  show (match alookup c (rowToOut cols r).cells with
    | some (some s) => s
    | some none => ""
    | none => "") = (alookup c r.cells).getD ""
  unfold rowToOut
  simp only []
  rw [alookup_map_pairs c (fun c' => alookup c' r.cells) cols, if_pos hc]
  rcases alookup c r.cells with _ | v <;> rfl

/-- C6: on a well-formed database, `export_csv` produces a header equal to
`get_data`'s column list (`id` then the registry order) followed by one
record per row in `get_data`'s order, and re-reading the produced CSV
recovers exactly those headers and cell values, with `NULL` cells normalised
to the empty string. -/
theorem C6_export_csv_roundtrip (m : Manager) (hwf : Wf m) (sp : Option String)
    (table : String) (hr : resolveTarget m sp = some table) (cols : List String) (t : Table)
    (hmeta : alookup table m.meta = some cols) (ht : alookup table m.tables = some t) :
    ∃ content,
      export_csv m sp = Except.ok (Outcome.ok content, m) ∧
      get_data m sp =
        Except.ok (Outcome.ok ⟨table, "id" :: cols, t.rows.map (rowToOut cols)⟩, m) ∧
      parseCsv content.data =
        ("id" :: cols) ::
          t.rows.map (fun r =>
            toString r.id :: cols.map (fun c => (alookup c r.cells).getD "")) := by
  rcases wf_lookup hwf hmeta with ⟨t1, ht1, hc1, hwt1⟩
  rw [ht] at ht1
  cases ht1
  obtain ⟨hcne, hcnd, hcid, hpw, hseq⟩ := hwt1
  have hnid : "id" ∉ cols := hc1 ▸ hcid
  have hcolsne : cols ≠ [] := hc1 ▸ hcne
  have hgc : get_columns m table = cols := by
    unfold get_columns
    rw [hmeta]
    rfl
  have hsort : sortById t.rows = t.rows := sortById_sorted hpw
  have hgd : ∀ sp', resolveTarget m sp' = some table →
      get_data m sp' =
        Except.ok (Outcome.ok ⟨table, "id" :: cols, t.rows.map (rowToOut cols)⟩, m) := by
    intro sp' hr'
    unfold get_data
    rw [hr']
    simp only []
    rw [ht]
    simp only []
    rw [hgc, hsort, hc1]
  have hanyf : (t.rows.map (rowToOut cols)).any
      (fun r => r.cells.any (fun kv => !(("id" :: cols).contains kv.1))) = false := by
    rw [List.any_eq_false]
    intro r' hr'
    rcases List.mem_map.mp hr' with ⟨r0, _, rfl⟩
    rw [Bool.not_eq_true, List.any_eq_false]
    intro kv hkv
    rcases List.mem_map.mp hkv with ⟨c, hcm, rfl⟩
    have hcon : (("id" :: cols).contains c) = true :=
      List.elem_iff.mpr (List.mem_cons_of_mem _ hcm)
    show ¬(!(("id" :: cols).contains c)) = true
    rw [hcon]
    simp
  have hexp : export_csv m sp = Except.ok (Outcome.ok (String.mk (renderCsv
      (("id" :: cols) :: (t.rows.map (rowToOut cols)).map (rowRecord ("id" :: cols))))), m) := by
    unfold export_csv
    rw [hr]
    simp only []
    rw [hgd (some table) rfl]
    simp only []
    rw [if_neg (by rw [hanyf]; simp)]
  refine ⟨_, hexp, hgd sp hr, ?_⟩
  show parseCsv (renderCsv
      (("id" :: cols) :: (t.rows.map (rowToOut cols)).map (rowRecord ("id" :: cols)))) = _
  rw [parseCsv_renderCsv]
  · rw [List.map_map]
    refine congrArg₂ _ rfl (List.map_eq_map_iff.mpr ?_)
    intro r _
    show rowRecord ("id" :: cols) (rowToOut cols r) = _
    rw [rowRecord_rowToOut cols hnid r]
  · intro rec hrec
    rcases List.mem_cons.mp hrec with rfl | hmemr
    · intro heq
      rw [List.cons.injEq] at heq
      exact absurd heq.1 (by decide)
    · rcases List.mem_map.mp hmemr with ⟨r0, _, rfl⟩
      rcases List.mem_map.mp (by assumption : rowRecord ("id" :: cols) r0 ∈
        (t.rows.map (rowToOut cols)).map (rowRecord ("id" :: cols))) with ⟨r1, hr1, hre⟩
      intro heq
      unfold rowRecord at heq
      rw [List.map_cons, List.cons.injEq] at heq
      rcases heq with ⟨_, hnil⟩
      rw [List.map_eq_nil_iff] at hnil
      exact hcolsne hnil

/-- Witness for C6 on the two-column sample database, with the produced file
content spelled out. -/
theorem C6_export_csv_roundtrip_witness :
    (∃ content,
      export_csv sampleState2 none = Except.ok (Outcome.ok content, sampleState2) ∧
      get_data sampleState2 none =
        Except.ok (Outcome.ok ⟨"t", "id" :: ["a", "b"],
          [(⟨1, [("a", "1"), ("b", "2")]⟩ : Row)].map (rowToOut ["a", "b"])⟩, sampleState2) ∧
      parseCsv content.data =
        ("id" :: ["a", "b"]) ::
          [(⟨1, [("a", "1"), ("b", "2")]⟩ : Row)].map (fun r =>
            toString r.id :: ["a", "b"].map (fun c => (alookup c r.cells).getD ""))) ∧
    export_csv sampleState2 none =
      Except.ok (Outcome.ok "id,a,b\r\n1,1,2\r\n", sampleState2) :=
  ⟨C6_export_csv_roundtrip sampleState2 (by decide) none "t" rfl ["a", "b"]
      ⟨["a", "b"], [⟨1, [("a", "1"), ("b", "2")]⟩], 1⟩ rfl rfl,
   rfl⟩
